import Mathlib

/-!
Verification of the storyboard generator repository.

This file shallowly embeds the algorithmic parts of the repository —
the basic story segmentation (`src/lib/storyboard-generator.ts`), the
storyboard-context document operations (`src/context/storyboard-context.tsx`),
the sequential image-request queue and its placeholder-URL generators
(`FalImageService` and `ImageGenerationService`), and the print-preview
pagination (`PrintPreview`) — and proves or refutes the frozen claims
about them.

Embedding conventions:
* JavaScript strings are Lean `String`s; string routines that the source
  uses (`split` on a regexp character class, `trim`, `includes`,
  `substring`, `encodeURIComponent`, `join`) are re-implemented on
  `List Char` below with JavaScript semantics.
* `Math.random()`-driven choices are modelled by an explicit stream
  `rng : Nat → Nat` consumed at sequentially numbered call sites;
  `Math.floor(Math.random() * n)` becomes `rng k % n`, which has exactly
  the range `0 .. n-1` of the source expression.
* The floating-point index arithmetic
  `Math.floor((sentenceCount / shotCount) * i)` and
  `Math.ceil(sentenceCount / shotCount)` is embedded as exact rational
  floor/ceiling on `Nat` (`(n * i) / c` and `ceilDiv n c`).
* Fallible operations (`throw new Error`) return `Except String _`.
-/

namespace StoryboardVerification

/-! ## JavaScript-flavoured text utilities -/

/-- JS `\s`-style whitespace test used by `String.prototype.trim`. -/
def jsIsWhitespace (c : Char) : Bool :=
  c = ' ' || c = '\t' || c = '\n' || c = '\r' || c = '\x0b' || c = '\x0c'

/-- `String.prototype.trim` on a character list. -/
def jsTrimList (cs : List Char) : List Char :=
  ((cs.dropWhile jsIsWhitespace).reverse.dropWhile jsIsWhitespace).reverse

/-- `String.prototype.trim`. -/
def jsTrim (s : String) : String :=
  ⟨jsTrimList s.data⟩

/-- Auxiliary state machine for `jsSplitRuns`: `inRun = true` means the
scanner is inside a maximal run of separator characters. -/
def jsSplitRunsAux (p : Char → Bool) : List Char → List Char → Bool → List String
  | [], acc, inRun =>
    if inRun then [⟨acc.reverse⟩, ""] else [⟨acc.reverse⟩]
  | c :: rest, acc, inRun =>
    if p c then
      if inRun then jsSplitRunsAux p rest acc true
      else jsSplitRunsAux p rest acc true
    else
      if inRun then ⟨acc.reverse⟩ :: jsSplitRunsAux p rest [c] false
      else jsSplitRunsAux p rest (c :: acc) false

/-- JS `String.prototype.split` against a one-character-class-plus regexp
such as `/\n+/` or `/[.!?]+/`: maximal runs of separator characters act as
a single separator, a leading run yields a leading empty segment and a
trailing run a trailing empty segment, and `"".split` gives `[""]`. -/
def jsSplitRuns (p : Char → Bool) (s : String) : List String :=
  jsSplitRunsAux p s.data [] false

/-- JS `String.prototype.split("x")` with a plain one-character separator:
every separator occurrence splits, empty segments are kept. -/
def jsSplitChar (sep : Char) (s : String) : List String :=
  (s.data.splitOnP (· = sep)).map fun cs => ⟨cs⟩

/-- JS `Array.prototype.slice(start, stop)` for in-range `start ≤ stop`
(and, like JS, returning `[]` when `stop ≤ start`). -/
def jsSlice (l : List α) (start stop : Nat) : List α :=
  (l.drop start).take (stop - start)

/-- JS `Array.prototype.join(sep)`. -/
def jsJoin (sep : String) (l : List String) : String :=
  String.intercalate sep l

/-- JS `String.prototype.substring(0, n)` (the source only slices from 0). -/
def jsSubstringTo (s : String) (n : Nat) : String :=
  ⟨s.data.take n⟩

/-- JS `String.prototype.toLowerCase` (ASCII, as used by the source). -/
def jsToLower (s : String) : String :=
  ⟨s.data.map Char.toLower⟩

/-- Bool-valued list infix test. -/
def listIsInfixOf (needle : List Char) : List Char → Bool
  | [] => needle.isEmpty
  | c :: rest => needle.isPrefixOf (c :: rest) || listIsInfixOf needle rest

/-- JS `String.prototype.includes`. -/
def jsIncludes (s needle : String) : Bool :=
  listIsInfixOf needle.data s.data

/-- `Math.ceil(n / c)` for nonnegative exact division. -/
def ceilDiv (n c : Nat) : Nat :=
  (n + c - 1) / c

/-! ## `analyzeStoryBasic` (src/lib/storyboard-generator.ts) -/

/-- A shot as assembled by `analyzeStoryBasic`
(`src/lib/storyboard-generator.ts`, lines 255-270). -/
structure BasicShot where
  shotType : String
  description : String
  cameraAngle : String
  cameraMovement : String
  characters : Option (List String)
  location : String
  timeOfDay : String
  lighting : String
  mood : String
  audio : String
  notes : String
  deriving Repr, DecidableEq

/-- A scene as assembled by `analyzeStoryBasic`. -/
structure BasicScene where
  title : String
  description : String
  shots : List BasicShot
  deriving Repr, DecidableEq

/-- The story structure returned by `analyzeStoryBasic`. -/
structure BasicAnalysis where
  title : String
  scenes : List BasicScene
  deriving Repr, DecidableEq

/-- `storyText.split(/\n+/).filter((p) => p.trim().length > 0)`:
the paragraph list `analyzeStoryBasic` builds scenes from. -/
def codeParagraphs (storyText : String) : List String :=
  (jsSplitRuns (· = '\n') storyText).filter fun p => jsTrim p ≠ ""

/-- `generateTitle` (`src/lib/storyboard-generator.ts`, lines 291-297). -/
def generateTitle (storyText : String) : String :=
  let words := jsSplitChar ' ' storyText
  let titleWords := jsSlice words 0 (min 5 words.length)
  jsJoin " " titleWords ++ (if titleWords.length < words.length then "..." else "")

/-- JS word character (`\w`), as used by the `\b[A-Z][a-z]+\b` regexp. -/
def jsIsWordChar (c : Char) : Bool :=
  ('A' ≤ c && c ≤ 'Z') || ('a' ≤ c && c ≤ 'z') || ('0' ≤ c && c ≤ '9') || c = '_'

def isUpperAZ (c : Char) : Bool := 'A' ≤ c && c ≤ 'Z'

def isLowerAZ (c : Char) : Bool := 'a' ≤ c && c ≤ 'z'

/-- All matches of `/\b[A-Z][a-z]+\b/g`: an ASCII uppercase letter
followed by a maximal nonempty run of ASCII lowercase letters, delimited
by non-word characters (or the ends of the string) on both sides. -/
def capitalizedWordMatches : Option Char → List Char → List String
  | _, [] => []
  | prev, c :: rest =>
    let prevIsWord := match prev with
      | none => false
      | some p => jsIsWordChar p
    if isUpperAZ c && !prevIsWord then
      let run := rest.takeWhile isLowerAZ
      let rest2 := rest.dropWhile isLowerAZ
      let nextOk := match rest2 with
        | [] => true
        | d :: _ => !jsIsWordChar d
      if run.length > 0 && nextOk then
        String.mk (c :: run) :: capitalizedWordMatches (some (run.getLastD c)) rest2
      else
        capitalizedWordMatches (some c) rest
    else
      capitalizedWordMatches (some c) rest
  termination_by _ cs => cs.length
  decreasing_by
    all_goals simp_wf
    exact Nat.lt_succ_of_le (List.dropWhile_sublist isLowerAZ).length_le

/-- Keep the first occurrence of each element (`[...new Set(matches)]`). -/
def dedupKeepFirst : List String → List String
  | [] => []
  | x :: rest =>
    x :: dedupKeepFirst (rest.filter (· ≠ x))
  termination_by l => l.length
  decreasing_by
    simp_wf
    exact Nat.lt_succ_of_le (List.length_filter_le _ rest)

/-- `paragraph.match(/\b[A-Z][a-z]+\b/g)` then
`[...new Set(matches)].slice(0, 2)`, `undefined` when there is no match
(`src/lib/storyboard-generator.ts`, lines 226-227). -/
def extractCharacters (paragraph : String) : Option (List String) :=
  match capitalizedWordMatches none paragraph.data with
  | [] => none
  | ms => some (jsSlice (dedupKeepFirst ms) 0 2)

/-- The lighting text keyed on paragraph content
(`src/lib/storyboard-generator.ts`, lines 234-241). -/
def lightingFor (paragraph : String) : String :=
  let low := jsToLower paragraph
  if jsIncludes low "night" || jsIncludes low "dark" then
    "Low-key lighting with deep shadows"
  else if jsIncludes low "sunset" || jsIncludes low "dusk" then
    "Golden hour lighting with warm orange tones"
  else if jsIncludes low "morning" || jsIncludes low "dawn" then
    "Soft diffused morning light with cool blue tones"
  else
    "Natural lighting"

/-- The audio text keyed on the chosen mood
(`src/lib/storyboard-generator.ts`, lines 244-253). -/
def audioFor (mood : String) : String :=
  if mood = "TENSE" || mood = "SCARY" then "Tense music, subtle heartbeat sound"
  else if mood = "HAPPY" then "Upbeat music, cheerful ambient sounds"
  else if mood = "SAD" then "Melancholic music, soft ambient sounds"
  else if mood = "MYSTERIOUS" then "Mysterious ambient sounds, subtle tones"
  else "Ambient sounds"

def sentenceEnd (c : Char) : Bool := c = '.' || c = '!' || c = '?'

/-- One shot of `analyzeStoryBasic` for paragraph `paragraph`, shot index
`i` of `shotCount`; `rng k`, `rng (k+1)`, `rng (k+2)`, `rng (k+3)` are the
four `Math.random()` draws (shot type, camera angle, camera movement,
mood) in source order. -/
def mkBasicShot (rng : Nat → Nat) (k : Nat) (paragraph : String)
    (shotCount i : Nat) : BasicShot :=
  let shotType :=
    if i = 0 then
      (["ELS", "LS", "AERIAL"].getD (rng k % 3) "")
    else if i = shotCount - 1 then
      (["CU", "MCU", "MS"].getD (rng k % 3) "")
    else
      (["MS", "MLS", "LS", "MCU", "OTS"].getD (rng k % 5) "")
  let cameraAngle := ["EYE_LEVEL", "LOW_ANGLE", "HIGH_ANGLE", "BIRD_EYE"].getD (rng (k + 1) % 4) ""
  let cameraMovement := ["STATIC", "PAN", "DOLLY_IN", "ZOOM_IN", "TRACKING"].getD (rng (k + 2) % 5) ""
  let sentenceCount := (jsSplitRuns sentenceEnd paragraph).length
  let startSentence := (sentenceCount * i) / shotCount
  let endSentence := min (startSentence + ceilDiv sentenceCount shotCount) sentenceCount
  let sentences := (jsSplitRuns sentenceEnd paragraph).filter fun s => jsTrim s ≠ ""
  let shotDescription := jsJoin ". " (jsSlice sentences startSentence endSentence) ++ "."
  let characters := extractCharacters paragraph
  let mood := ["HAPPY", "SAD", "TENSE", "MYSTERIOUS", "ROMANTIC", "SCARY"].getD (rng (k + 3) % 6) ""
  let lighting := lightingFor paragraph
  let audio := audioFor mood
  let notes :=
    "This " ++ shotType ++ " shot emphasizes the " ++
      (if shotType = "CU" || shotType = "ECU" then "emotional impact" else "environmental context") ++
      " of the scene. " ++
      (if cameraMovement ≠ "STATIC" then "The " ++ jsToLower cameraMovement ++ " movement adds dynamism." else "")
  { shotType := shotType
    description := shotDescription
    cameraAngle := cameraAngle
    cameraMovement := cameraMovement
    characters := characters
    location := "Story location"
    timeOfDay := if jsIncludes (jsToLower paragraph) "night" then "Night" else "Day"
    lighting := lighting
    mood := mood
    audio := audio
    notes := notes }

/-- One scene of `analyzeStoryBasic` for paragraph index `index`; `rng k`
is the `Math.random()` draw for the shot count, the shots consume four
draws each starting at `k + 1`. -/
def mkBasicScene (rng : Nat → Nat) (k : Nat) (paragraph : String) (index : Nat) : BasicScene :=
  let sceneTitle :=
    "Scene " ++ toString (index + 1) ++ ": " ++
      jsJoin " " (jsSlice (jsSplitChar ' ' paragraph) 0 3) ++ "..."
  let shotCount := rng k % 3 + 2
  let shots := (List.range shotCount).map fun i => mkBasicShot rng (k + 1 + 4 * i) paragraph shotCount i
  { title := sceneTitle, description := paragraph, shots := shots }

/-- Scene list construction of `analyzeStoryBasic`: one scene per filtered
paragraph, threading the random-draw counter `k` sequentially. -/
def buildBasicScenes (rng : Nat → Nat) : List String → Nat → Nat → List BasicScene
  | [], _, _ => []
  | p :: rest, index, k =>
    let shotCount := rng k % 3 + 2
    mkBasicScene rng k p index :: buildBasicScenes rng rest (index + 1) (k + 1 + 4 * shotCount)

/-- `analyzeStoryBasic` (`src/lib/storyboard-generator.ts`, lines 179-284),
with the `Math.random()` stream made explicit. -/
def analyzeStoryBasic (rng : Nat → Nat) (storyText : String) : BasicAnalysis :=
  { title := generateTitle storyText
    scenes := buildBasicScenes rng (codeParagraphs storyText) 0 0 }

/-- Modelled from the spec (for the refinement comparison in claim C1
only): the spec's paragraph notion, "split text on blank-line boundaries
to get paragraphs" — maximal groups of consecutive non-blank lines,
separated by blank lines; a paragraph is non-empty when it contains a
non-whitespace character. -/
def specParagraphs (storyText : String) : List String :=
  let lines := jsSplitChar '\n' storyText
  let groups := lines.splitOnP (fun line => jsTrim line = "")
  (groups.map fun g => jsJoin "\n" g).filter fun p => jsTrim p ≠ ""

/-! ## Document model (src/lib/types.ts)

The structures below mirror the interfaces of `src/lib/types.ts` that the
claims touch.  Enumerated string unions (`ShotType`, `CameraAngle`,
`VisualStyle`, ...) are embedded as `String`; numbers that the code never
computes with (positions, scales, z-indices) as `Int`.  `TemplateStyle`
and `Annot` (source name `Annotation`) carry their identifying and
referencing fields; their purely visual styling payload fields (colors,
fonts, line styles, points, ...) are elided — no operation under
verification reads or writes them, they only travel with the record.
`StoryboardData.annotations` is typed `Annotation[]` in the source but is
absent at runtime on legacy persisted data (every consumer guards with
`!data.annotations`), so it is embedded as an `Option`. -/

structure TemplateStyle where
  id : String
  name : String := ""
  description : Option String := none
  createdAt : String := ""
  updatedAt : String := ""
  deriving Repr, DecidableEq

structure Annot where
  id : String
  type : String := ""
  shotId : Option String := none
  sceneId : Option String := none
  position : Int × Int := (0, 0)
  size : Int × Int := (0, 0)
  color : String := ""
  content : Option String := none
  zIndex : Int := 0
  createdAt : String := ""
  updatedAt : String := ""
  deriving Repr, DecidableEq

structure ShotInfo where
  id : String
  sceneId : String
  sceneContext : String := ""
  shotDescription : String := ""
  shotType : String := ""
  cameraAngle : String := ""
  cameraMovement : String := ""
  characters : Option (List String) := none
  location : Option String := none
  timeOfDay : Option String := none
  weather : Option String := none
  keyProps : Option (List String) := none
  mood : Option String := none
  lighting : Option String := none
  audio : Option String := none
  notes : Option String := none
  specialNotes : Option String := none
  prompt : Option String := none
  imageUrl : Option String := none
  dialogueSnippet : Option String := none
  order : Option Int := none
  printPosition : Option (Int × Int) := none
  printScale : Option Int := none
  deriving Repr, DecidableEq

structure SceneInfo where
  id : String
  title : String := ""
  description : String := ""
  shots : List ShotInfo := []
  order : Option Int := none
  printPageBreakBefore : Option Bool := none
  deriving Repr, DecidableEq

structure StyleSettings where
  visualStyle : String := "cinematic"
  aspectRatio : String := "16:9"
  quality : String := "standard"
  styleModifiers : Option (List String) := none
  artistReference : Option String := none
  colorPalette : Option String := none
  characterDescriptions : Option (List (String × String)) := none
  deriving Repr, DecidableEq

structure StoryboardData where
  id : String
  title : String := ""
  author : Option String := none
  director : Option String := none
  date : String := ""
  version : String := ""
  style : String := ""
  aspectRatio : String := ""
  scenes : List SceneInfo := []
  templateStyle : Option TemplateStyle := none
  annotations : Option (List Annot) := none
  deriving Repr, DecidableEq

structure StoryboardVersion where
  id : String
  name : String := ""
  description : Option String := none
  timestamp : String := ""
  storyboardData : StoryboardData
  storyInput : String := ""
  styleSettings : StyleSettings := {}
  deriving Repr, DecidableEq

/-- `Partial<ShotInfo>`: a field is `some _` exactly when the partial
object carries that key. -/
structure ShotPatch where
  id : Option String := none
  sceneId : Option String := none
  sceneContext : Option String := none
  shotDescription : Option String := none
  shotType : Option String := none
  cameraAngle : Option String := none
  cameraMovement : Option String := none
  characters : Option (List String) := none
  location : Option String := none
  timeOfDay : Option String := none
  weather : Option String := none
  keyProps : Option (List String) := none
  mood : Option String := none
  lighting : Option String := none
  audio : Option String := none
  notes : Option String := none
  specialNotes : Option String := none
  prompt : Option String := none
  imageUrl : Option String := none
  dialogueSnippet : Option String := none
  order : Option Int := none
  printPosition : Option (Int × Int) := none
  printScale : Option Int := none
  deriving Repr, DecidableEq

/-- `Partial<SceneInfo>` restricted to the keys `addScene` and
`updateScene` read. -/
structure ScenePatch where
  id : Option String := none
  title : Option String := none
  description : Option String := none
  shots : Option (List ShotInfo) := none
  order : Option Int := none
  printPageBreakBefore : Option Bool := none
  deriving Repr, DecidableEq

/-- JS object spread `{ ...shot, ...updates }`: every key present in the
patch wins over the base object. -/
def mergeShot (shot : ShotInfo) (p : ShotPatch) : ShotInfo :=
  { id := p.id.getD shot.id
    sceneId := p.sceneId.getD shot.sceneId
    sceneContext := p.sceneContext.getD shot.sceneContext
    shotDescription := p.shotDescription.getD shot.shotDescription
    shotType := p.shotType.getD shot.shotType
    cameraAngle := p.cameraAngle.getD shot.cameraAngle
    cameraMovement := p.cameraMovement.getD shot.cameraMovement
    characters := p.characters <|> shot.characters
    location := p.location <|> shot.location
    timeOfDay := p.timeOfDay <|> shot.timeOfDay
    weather := p.weather <|> shot.weather
    keyProps := p.keyProps <|> shot.keyProps
    mood := p.mood <|> shot.mood
    lighting := p.lighting <|> shot.lighting
    audio := p.audio <|> shot.audio
    notes := p.notes <|> shot.notes
    specialNotes := p.specialNotes <|> shot.specialNotes
    prompt := p.prompt <|> shot.prompt
    imageUrl := p.imageUrl <|> shot.imageUrl
    dialogueSnippet := p.dialogueSnippet <|> shot.dialogueSnippet
    order := p.order <|> shot.order
    printPosition := p.printPosition <|> shot.printPosition
    printScale := p.printScale <|> shot.printScale }

/-- JS object spread `{ ...scene, ...updates }`. -/
def mergeScene (scene : SceneInfo) (p : ScenePatch) : SceneInfo :=
  { id := p.id.getD scene.id
    title := p.title.getD scene.title
    description := p.description.getD scene.description
    shots := p.shots.getD scene.shots
    order := p.order <|> scene.order
    printPageBreakBefore := p.printPageBreakBefore <|> scene.printPageBreakBefore }

/-- JS `x || d` for strings: the empty string is falsy. -/
def jsOrString (o : Option String) (d : String) : String :=
  match o with
  | some s => if s = "" then d else s
  | none => d

/-! ## Storyboard context operations (src/context/storyboard-context.tsx)

Each handler of the React context is embedded as a pure function on the
(non-null) `StoryboardData`; `uuidv4()` results appear as explicit
`freshId` arguments.  Handlers that guard on `!storyboardData` are
modelled on the non-null document only, matching every claim. -/

/-- `new Map(xs.map(x => [x.id, x])).get(id)`: a JS `Map` built from
key/value pairs keeps the **last** entry for a duplicated key. -/
def lastWithId (key : α → String) (l : List α) (id : String) : Option α :=
  l.foldl (fun acc x => if key x = id then some x else acc) none

/-- `updateShot` (`src/context/storyboard-context.tsx`, lines 176-192).
The spread `{ ...shot, ...updates }` lets the patch override every field,
including `sceneId`. -/
def updateShot (sb : StoryboardData) (sceneId shotId : String) (updates : ShotPatch) :
    StoryboardData :=
  { sb with
    scenes := sb.scenes.map fun scene =>
      if scene.id = sceneId then
        { scene with
          shots := scene.shots.map fun shot =>
            if shot.id = shotId then mergeShot shot updates else shot }
      else scene }

/-- `addShot` (`src/context/storyboard-context.tsx`, lines 195-223).  The
trailing spread `...shot` comes after the defaulted fields, so every key
present in the partial — `sceneId` included — wins over the defaults. -/
def addShot (sb : StoryboardData) (sceneId : String) (shot : ShotPatch) (freshId : String) :
    StoryboardData :=
  let newShot : ShotInfo :=
    { id := shot.id.getD freshId
      sceneId := shot.sceneId.getD sceneId
      sceneContext := shot.sceneContext.getD ""
      shotDescription := shot.shotDescription.getD "New shot"
      shotType := shot.shotType.getD "MS"
      cameraAngle := shot.cameraAngle.getD "EYE_LEVEL"
      cameraMovement := shot.cameraMovement.getD "STATIC"
      lighting := some (shot.lighting.getD "Natural lighting")
      characters := shot.characters
      location := shot.location
      timeOfDay := shot.timeOfDay
      weather := shot.weather
      keyProps := shot.keyProps
      mood := shot.mood
      audio := shot.audio
      notes := shot.notes
      specialNotes := shot.specialNotes
      prompt := shot.prompt
      imageUrl := shot.imageUrl
      dialogueSnippet := shot.dialogueSnippet
      order := shot.order
      printPosition := shot.printPosition
      printScale := shot.printScale }
  { sb with
    scenes := sb.scenes.map fun scene =>
      if scene.id = sceneId then { scene with shots := scene.shots ++ [newShot] } else scene }

/-- `removeShot` (`src/context/storyboard-context.tsx`, lines 226-242). -/
def removeShot (sb : StoryboardData) (sceneId shotId : String) : StoryboardData :=
  { sb with
    scenes := sb.scenes.map fun scene =>
      if scene.id = sceneId then
        { scene with shots := scene.shots.filter fun shot => shot.id ≠ shotId }
      else scene }

/-- `updateScene` (`src/context/storyboard-context.tsx`, lines 245-254). -/
def updateScene (sb : StoryboardData) (sceneId : String) (updates : ScenePatch) :
    StoryboardData :=
  { sb with
    scenes := sb.scenes.map fun scene =>
      if scene.id = sceneId then mergeScene scene updates else scene }

/-- `addScene` (`src/context/storyboard-context.tsx`, lines 257-273). -/
def addScene (sb : StoryboardData) (scene : ScenePatch) (freshId : String) : StoryboardData :=
  let newScene : SceneInfo :=
    { id := jsOrString scene.id freshId
      title := jsOrString scene.title "New Scene"
      description := jsOrString scene.description ""
      shots := scene.shots.getD [] }
  { sb with scenes := sb.scenes ++ [newScene] }

/-- `removeScene` (`src/context/storyboard-context.tsx`, lines 276-285). -/
def removeScene (sb : StoryboardData) (sceneId : String) : StoryboardData :=
  { sb with scenes := sb.scenes.filter fun scene => scene.id ≠ sceneId }

/-- The body of the `shotIds.map` / `sceneIds.map` callbacks of the
reorder operations: `Map` lookup, `throw new Error(...)` when absent. -/
def lookupOrThrow (key : α → String) (l : List α) (msg : String) (id : String) :
    Except String α :=
  match lastWithId key l id with
  | some x => .ok x
  | none => .error (msg ++ id ++ " not found")

/-- `reorderShots` (`src/context/storyboard-context.tsx`, lines 288-312):
builds the new shot array by `Map` lookup, throwing on the first id that
is not a shot of the scene; the throw happens before `setStoryboardData`,
so an error leaves the document unchanged. -/
def reorderShots (sb : StoryboardData) (sceneId : String) (shotIds : List String) :
    Except String StoryboardData :=
  match sb.scenes.find? (fun s => s.id == sceneId) with
  | none => .ok sb
  | some scene =>
    (shotIds.mapM (lookupOrThrow ShotInfo.id scene.shots "Shot with ID ")).map
      fun reorderedShots =>
        { sb with
          scenes := sb.scenes.map fun scene =>
            if scene.id = sceneId then { scene with shots := reorderedShots } else scene }

/-- `reorderScenes` (`src/context/storyboard-context.tsx`, lines 315-334). -/
def reorderScenes (sb : StoryboardData) (sceneIds : List String) :
    Except String StoryboardData :=
  (sceneIds.mapM (lookupOrThrow SceneInfo.id sb.scenes "Scene with ID ")).map
    fun reorderedScenes => { sb with scenes := reorderedScenes }

/-- `duplicateShot` (`src/context/storyboard-context.tsx`, lines 337-360). -/
def duplicateShot (sb : StoryboardData) (sceneId shotId : String) (freshId : String) :
    StoryboardData :=
  match sb.scenes.find? (fun s => s.id == sceneId) with
  | none => sb
  | some scene =>
    match scene.shots.find? (fun s => s.id == shotId) with
    | none => sb
    | some shotToDuplicate =>
      let newShot : ShotInfo :=
        { shotToDuplicate with
          id := freshId
          shotDescription := shotToDuplicate.shotDescription ++ " (Copy)" }
      { sb with
        scenes := sb.scenes.map fun scene =>
          if scene.id = sceneId then { scene with shots := scene.shots ++ [newShot] } else scene }

/-- `duplicateScene` (`src/context/storyboard-context.tsx`, lines 363-391):
every duplicated shot gets a fresh id (`freshShotId i` for the `i`-th shot)
and `sceneId := freshSceneId`. -/
def duplicateScene (sb : StoryboardData) (sceneId : String) (freshSceneId : String)
    (freshShotId : Nat → String) : StoryboardData :=
  match sb.scenes.find? (fun s => s.id == sceneId) with
  | none => sb
  | some sceneToDuplicate =>
    let duplicatedShots := sceneToDuplicate.shots.enum.map fun p =>
      { p.2 with id := freshShotId p.1, sceneId := freshSceneId }
    let newScene : SceneInfo :=
      { sceneToDuplicate with
        id := freshSceneId
        title := sceneToDuplicate.title ++ " (Copy)"
        shots := duplicatedShots }
    { sb with scenes := sb.scenes ++ [newScene] }

/-- JS `arr.splice(idx, 0, a)` as an insertion: an out-of-range index is
clamped to the array length. -/
def jsSpliceInsert (l : List α) (idx : Nat) (a : α) : List α :=
  l.take idx ++ [a] ++ l.drop idx

/-- `moveShot` (`src/context/storyboard-context.tsx`, lines 394-443).
Note the source checks `scene.id === sourceSceneId` before
`scene.id === targetSceneId` when rebuilding the scene array. -/
def moveShot (sb : StoryboardData) (sourceSceneId shotId targetSceneId : String)
    (targetIndex : Option Nat) : StoryboardData :=
  match sb.scenes.find? (fun s => s.id == sourceSceneId),
        sb.scenes.find? (fun s => s.id == targetSceneId) with
  | some sourceScene, some targetScene =>
    match sourceScene.shots.find? (fun s => s.id == shotId) with
    | none => sb
    | some shotToMove =>
      let updatedShot : ShotInfo :=
        { shotToMove with sceneId := targetSceneId, sceneContext := targetScene.description }
      let updatedSourceScene :=
        { sourceScene with shots := sourceScene.shots.filter fun s => s.id ≠ shotId }
      let updatedTargetShots :=
        match targetIndex with
        | some idx => jsSpliceInsert targetScene.shots idx updatedShot
        | none => targetScene.shots ++ [updatedShot]
      let updatedTargetScene := { targetScene with shots := updatedTargetShots }
      { sb with
        scenes := sb.scenes.map fun scene =>
          if scene.id = sourceSceneId then updatedSourceScene
          else if scene.id = targetSceneId then updatedTargetScene
          else scene }
  | _, _ => sb

/-- The user-initiated shot delete: `handleDeleteShot`
(`src/unnamed/part_002`, lines 1181-1208) refuses to open the confirm
dialog when the scene has at most one shot; a confirmed dialog calls
`removeShot`.  This function composes the guard with the delete. -/
def userDeleteShot (sb : StoryboardData) (sceneId shotId : String) : StoryboardData :=
  match sb.scenes.find? (fun s => s.id == sceneId) with
  | none => sb
  | some scene =>
    if scene.shots.length ≤ 1 then sb
    else removeShot sb sceneId shotId

/-- The user-initiated scene delete: `handleDeleteScene`
(`src/unnamed/part_002`, lines 1210-1233) refuses when the storyboard has
at most one scene; a confirmed dialog calls `removeScene`. -/
def userDeleteScene (sb : StoryboardData) (sceneId : String) : StoryboardData :=
  if sb.scenes.length ≤ 1 then sb
  else removeScene sb sceneId

/-- The invariant of claim C8: every shot's `sceneId` names its owning
scene. -/
def SceneIdInvariant (sb : StoryboardData) : Prop :=
  ∀ scene ∈ sb.scenes, ∀ shot ∈ scene.shots, shot.sceneId = scene.id

instance (sb : StoryboardData) : Decidable (SceneIdInvariant sb) := by
  unfold SceneIdInvariant
  infer_instance

/-! ## Project persistence (src/context/storyboard-context.tsx, lines 446-503)

`localStorage` is a map from keys to persisted blobs.  `JSON.stringify`
followed by `JSON.parse` on the JSON-safe project record is the identity
at this level of modelling: object fields holding `undefined` are dropped
by `stringify` and read back as absent, which is exactly `Option.none` on
both sides.  Parse failure of a blob written by `saveProject` cannot
occur, so the `try/catch` of `loadProject` has no error branch here. -/

/-- The JSON blob `saveProject` writes under `storyboard-${id}`.  The
fields that `loadProject` destructures with a default are `Option`s, so a
blob from an older writer may lack them. -/
structure PersistedProject where
  storyboardData : Option StoryboardData := none
  storyInput : String := ""
  styleSettings : StyleSettings := {}
  characters : List String := []
  characterDescriptions : List (String × String) := []
  versionHistory : Option (List StoryboardVersion) := none
  currentVersionIndex : Option Nat := none
  savedTemplateStyles : Option (List TemplateStyle) := none
  deriving Repr, DecidableEq

/-- The provider state that `saveProject`/`loadProject` read and write. -/
structure AppState where
  storyInput : String := ""
  storyboardData : Option StoryboardData := none
  styleSettings : StyleSettings := {}
  characters : List String := []
  characterDescriptions : List (String × String) := []
  versionHistory : List StoryboardVersion := []
  currentVersionIndex : Nat := 0
  savedTemplateStyles : List TemplateStyle := []
  projectSaved : Bool := true
  deriving Repr, DecidableEq

def Storage : Type := String → Option PersistedProject

/-- The normalization `setStoryboardData` applies: a document whose
`annotations` field is absent gets the empty array. -/
def withDefaultAnnots (sb : StoryboardData) : StoryboardData :=
  { sb with annotations := some (sb.annotations.getD []) }

/-- `saveProject` (`src/context/storyboard-context.tsx`, lines 446-465):
no-op on a null document, otherwise writes the whole project under
`storyboard-${storyboardData.id}` and marks the project saved. -/
def saveProject (st : AppState) (σ : Storage) : AppState × Storage :=
  match st.storyboardData with
  | none => (st, σ)
  | some sb =>
    let blob : PersistedProject :=
      { storyboardData := some sb
        storyInput := st.storyInput
        styleSettings := st.styleSettings
        characters := st.characters
        characterDescriptions := st.characterDescriptions
        versionHistory := some st.versionHistory
        currentVersionIndex := some st.currentVersionIndex
        savedTemplateStyles := some st.savedTemplateStyles }
    ({ st with projectSaved := true },
      fun k => if k = "storyboard-" ++ sb.id then some blob else σ k)

/-- `loadProject` (`src/context/storyboard-context.tsx`, lines 468-503):
missing key is a silent no-op; otherwise all provider fields are replaced,
with `[]`/`0`/`[]` defaults for the destructured history fields and the
`annotations` array defaulted on the loaded document. -/
def loadProject (st : AppState) (σ : Storage) (id : String) : AppState :=
  match σ ("storyboard-" ++ id) with
  | none => st
  | some pp =>
    { storyInput := pp.storyInput
      storyboardData := pp.storyboardData.map withDefaultAnnots
      styleSettings := pp.styleSettings
      characters := pp.characters
      characterDescriptions := pp.characterDescriptions
      versionHistory := pp.versionHistory.getD []
      currentVersionIndex := pp.currentVersionIndex.getD 0
      savedTemplateStyles := pp.savedTemplateStyles.getD []
      projectSaved := true }

/-! ## Sequential image-request queue
(src/context/storyboard-context.tsx `FalImageService`, lines 944-1022, and
src/unnamed/part_000 `ImageGenerationService`, lines 27-89)

Both adapters keep a `requestQueue` array and an `isProcessing` flag.
`generateImage` pushes the request and synchronously calls
`processQueue`; `processQueue` returns at once when `isProcessing` is set
or the queue is empty, and otherwise shifts exactly one request, resolves
its promise, clears the flag and re-arms itself with
`setTimeout(() => this.processQueue(), 100)`.

JavaScript runs this on a single thread: each `processQueue` body is one
atomic step (the live path contains no `await`), and the `setTimeout`
re-arm surfaces as a later macrotask.  The embedding therefore replays an
arbitrary interleaving of the two kinds of event — a `generateImage`
submission and a timer firing — against the service state.  `resolveFn`
is the adapter's placeholder generator, applied where the source calls
`resolve(...)` on the dequeued request. -/

structure QueueState where
  pending : List String := []
  resolved : List (String × String) := []
  submitted : List String := []
  isProcessing : Bool := false
  deriving Repr, DecidableEq

/-- One synchronous `processQueue()` run. -/
def processQueue (resolveFn : String → String) (s : QueueState) : QueueState :=
  if s.isProcessing then s
  else
    match s.pending with
    | [] => s
    | prompt :: rest =>
      { s with
        pending := rest
        resolved := s.resolved ++ [(prompt, resolveFn prompt)]
        isProcessing := false }

inductive QueueEvent where
  | generateImage (prompt : String)
  | timerFire
  deriving Repr, DecidableEq

/-- One event of the event loop: a `generateImage(options)` call (push
then synchronous `processQueue()`), or a pending `setTimeout` re-arm
firing (`processQueue()` alone). -/
def queueStep (resolveFn : String → String) (s : QueueState) : QueueEvent → QueueState
  | .generateImage prompt =>
    processQueue resolveFn
      { s with pending := s.pending ++ [prompt], submitted := s.submitted ++ [prompt] }
  | .timerFire => processQueue resolveFn s

/-- Replay a whole event sequence from the fresh-service state. -/
def runQueue (resolveFn : String → String) (events : List QueueEvent) : QueueState :=
  events.foldl (queueStep resolveFn) {}

/-! ## Placeholder image URLs -/

def hexDigit (n : Nat) : Char :=
  "0123456789ABCDEF".data.getD n '0'

/-- `%XX` percent-escape of one byte, uppercase hex as produced by
`encodeURIComponent`. -/
def percentEncodeByte (b : Nat) : List Char :=
  ['%', hexDigit (b / 16), hexDigit (b % 16)]

/-- UTF-8 bytes of a Unicode scalar value. -/
def utf8Bytes (c : Char) : List Nat :=
  let v := c.toNat
  if v < 0x80 then [v]
  else if v < 0x800 then [0xC0 + v / 0x40, 0x80 + v % 0x40]
  else if v < 0x10000 then
    [0xE0 + v / 0x1000, 0x80 + v / 0x40 % 0x40, 0x80 + v % 0x40]
  else
    [0xF0 + v / 0x40000, 0x80 + v / 0x1000 % 0x40, 0x80 + v / 0x40 % 0x40, 0x80 + v % 0x40]

/-- The characters `encodeURIComponent` leaves unescaped:
`A-Z a-z 0-9 - _ . ! ~ * ' ( )`. -/
def isUriUnreserved (c : Char) : Bool :=
  isUpperAZ c || isLowerAZ c || ('0' ≤ c && c ≤ '9') ||
    c = '-' || c = '_' || c = '.' || c = '!' || c = '~' || c = '*' ||
    c.toNat = 39 || c = '(' || c = ')'

def percentEncodeChar (c : Char) : List Char :=
  if isUriUnreserved c then [c]
  else (utf8Bytes c).foldr (fun b acc => percentEncodeByte b ++ acc) []

/-- JS `encodeURIComponent`. -/
def encodeURIComponent (s : String) : String :=
  ⟨s.data.foldr (fun c acc => percentEncodeChar c ++ acc) []⟩

/-- `FalImageService.generatePlaceholderImage`
(`src/context/storyboard-context.tsx`, lines 1029-1038): the query is the
percent-encoded **first 100 characters** of the prompt, and the template
literal with `height = 450`, `width = 800` yields the fixed prefix. -/
def falPlaceholderImage (prompt : String) : String :=
  "/placeholder.svg?height=450&width=800&query=" ++
    encodeURIComponent (jsSubstringTo prompt 100)

/-- `ImageGenerationService.generatePlaceholderImage`
(`src/unnamed/part_000`, lines 144-154): same URL shape, but the query
percent-encodes the **entire** prompt — this adapter does not truncate. -/
def imageServicePlaceholderImage (prompt : String) : String :=
  "/placeholder.svg?height=450&width=800&query=" ++ encodeURIComponent prompt

/-! ## Print-preview pagination (src/components/error-boundary.tsx,
`PrintPreview` preview-page generation effect, lines 138-203) -/

structure PageShot where
  shotId : String
  sceneId : String
  position : Int × Int
  scale : Int
  deriving Repr, DecidableEq

structure SceneHeader where
  sceneId : String
  position : Int × Int
  deriving Repr, DecidableEq

structure PrintPreviewPage where
  pageNumber : Nat
  shots : List PageShot
  sceneHeader : Option SceneHeader
  deriving Repr, DecidableEq

/-- The loop state of the preview-page effect.  `firedBreaks` is
instrumentation only: it counts how often the
`scene.printPageBreakBefore && currentPageShots.length > 0` branch was
taken, and influences nothing. -/
structure PageBuildState where
  pages : List PrintPreviewPage := []
  currentPageShots : List PageShot := []
  currentPageNumber : Nat := 1
  currentSceneHeader : Option SceneHeader := none
  firedBreaks : Nat := 0
  deriving Repr, DecidableEq

/-- Push the current page and reset (`pages.push({...}); currentPageShots
= []; currentPageNumber++; currentSceneHeader = undefined`). -/
def flushPage (st : PageBuildState) : PageBuildState :=
  { pages := st.pages ++
      [{ pageNumber := st.currentPageNumber
         shots := st.currentPageShots
         sceneHeader := st.currentSceneHeader }]
    currentPageShots := []
    currentPageNumber := st.currentPageNumber + 1
    currentSceneHeader := none
    firedBreaks := st.firedBreaks }

/-- The per-shot body: append the shot to the current page, then flush
when `currentPageShots.length >= shotsPerPage`. -/
def pushShot (shotsPerPage : Nat) (sceneId : String) (st : PageBuildState) (shot : ShotInfo) :
    PageBuildState :=
  let st' :=
    { st with
      currentPageShots := st.currentPageShots ++
        [{ shotId := shot.id
           sceneId := sceneId
           position := shot.printPosition.getD (0, 0)
           scale := shot.printScale.getD 1 }] }
  if shotsPerPage ≤ st'.currentPageShots.length then flushPage st' else st'

/-- The per-scene body: honour `printPageBreakBefore` when the current
page is non-empty, set the scene header, then run the shots. -/
def processScene (shotsPerPage : Nat) (st : PageBuildState) (scene : SceneInfo) :
    PageBuildState :=
  let st :=
    if scene.printPageBreakBefore.getD false && !st.currentPageShots.isEmpty then
      { flushPage st with firedBreaks := st.firedBreaks + 1 }
    else st
  let st := { st with currentSceneHeader := some { sceneId := scene.id, position := (0, 0) } }
  scene.shots.foldl (pushShot shotsPerPage scene.id) st

/-- `shotsPerPage` as the effect computes it:
`printSettings.layout === "detailed" ? 1 : printSettings.shotsPerPage`. -/
def effectiveShotsPerPage (layout : String) (shotsPerPage : Nat) : Nat :=
  if layout = "detailed" then 1 else shotsPerPage

/-- The whole preview-page generation effect: fold the scenes, then flush
any remaining shots onto a final page. -/
def generatePreviewPages (layout : String) (shotsPerPage : Nat) (sb : StoryboardData) :
    PageBuildState :=
  let eff := effectiveShotsPerPage layout shotsPerPage
  let st := sb.scenes.foldl (processScene eff) {}
  if !st.currentPageShots.isEmpty then flushPage st else st

/-- Total number of shots of a storyboard, scene order flattened. -/
def totalShots (sb : StoryboardData) : Nat :=
  (sb.scenes.map fun scene => scene.shots.length).sum

/-! ## Shared example documents for witnesses and counterexamples -/

/-- A two-scene document: scene `s1` holds the single shot `a`, scene
`s2` holds shots `b` and `c`. -/
def exampleTwoScenes : StoryboardData :=
  { id := "sb0"
    title := "Example"
    date := "2024-01-01"
    version := "1.0"
    style := "cinematic"
    aspectRatio := "16:9"
    scenes :=
      [ { id := "s1", title := "One", shots := [{ id := "a", sceneId := "s1" }] },
        { id := "s2", title := "Two",
          shots := [{ id := "b", sceneId := "s2" }, { id := "c", sceneId := "s2" }] } ]
    annotations := some [] }

/-- A single-scene, single-shot document. -/
def exampleSolo : StoryboardData :=
  { id := "sb1"
    scenes := [{ id := "s1", shots := [{ id := "a", sceneId := "s1" }] }]
    annotations := some [] }

/-! ## Claim C4 -/

/-- C4: a user-initiated delete of the sole remaining shot of a scene
(the `handleDeleteShot` guard fires when the target scene has at most one
shot) or of the sole remaining scene (the `handleDeleteScene` guard fires
when the storyboard has at most one scene) is rejected and leaves the
document unchanged. -/
theorem userDelete_sole_remaining_rejected (sb : StoryboardData) (sceneId shotId : String) :
    (∀ scene, sb.scenes.find? (fun s => s.id == sceneId) = some scene →
      scene.shots.length ≤ 1 → userDeleteShot sb sceneId shotId = sb) ∧
    (sb.scenes.length ≤ 1 → userDeleteScene sb sceneId = sb) := by
  constructor
  · intro scene hfind hone
    simp [userDeleteShot, hfind, hone]
  · intro hone
    simp [userDeleteScene, hone]

/-- Witness for C4 at a concrete document: deleting the only shot of
scene `s1` of `exampleSolo`, and deleting its only scene, both return the
document unchanged. -/
theorem userDelete_sole_remaining_rejected_witness :
    userDeleteShot exampleSolo "s1" "a" = exampleSolo ∧
      userDeleteScene exampleSolo "s1" = exampleSolo := by
  constructor
  · exact (userDelete_sole_remaining_rejected exampleSolo "s1" "a").1
      { id := "s1", shots := [{ id := "a", sceneId := "s1" }] } (by decide) (by decide)
  · exact (userDelete_sole_remaining_rejected exampleSolo "s1" "a").2 (by decide)

/-! ## Reorder lemmas -/

/-- The overwrite-fold of `lastWithId` is `find?` on the reversed list. -/
theorem lastWithId_loop (key : α → String) (id : String) (l : List α)
    (acc : Option α) :
    l.foldl (fun acc x => if key x = id then some x else acc) acc =
      (l.reverse.find? (fun x => key x == id) <|> acc) := by
  induction l generalizing acc with
  | nil => simp
  | cons x l ih =>
    simp only [List.foldl_cons, List.reverse_cons, List.find?_append, ih]
    rcases h : l.reverse.find? (fun x => key x == id) with _ | y
    · by_cases hx : key x = id <;> simp [hx]
    · simp

theorem lastWithId_eq_find_reverse (key : α → String) (l : List α) (id : String) :
    lastWithId key l id = l.reverse.find? (fun x => key x == id) := by
  rw [lastWithId, lastWithId_loop]
  rcases l.reverse.find? (fun x => key x == id) <;> simp

theorem lastWithId_isSome (key : α → String) (l : List α) (id : String)
    (h : ∃ x ∈ l, key x = id) : (lastWithId key l id).isSome := by
  rw [lastWithId_eq_find_reverse]
  rw [List.find?_isSome]
  obtain ⟨x, hx, hkey⟩ := h
  exact ⟨x, by simpa using hx, by simpa using hkey⟩

theorem lastWithId_eq_some (key : α → String) (l : List α) (id : String) (x : α)
    (h : lastWithId key l id = some x) : key x = id ∧ x ∈ l := by
  rw [lastWithId_eq_find_reverse] at h
  have h1 := List.find?_some h
  have h2 := List.mem_of_find?_eq_some h
  exact ⟨by simpa using h1, by simpa using h2⟩

theorem lastWithId_eq_none (key : α → String) (l : List α) (id : String)
    (h : ∀ x ∈ l, key x ≠ id) : lastWithId key l id = none := by
  rw [lastWithId_eq_find_reverse]
  rw [List.find?_eq_none]
  intro x hx
  simpa using h x (by simpa using hx)

/-- When every requested id resolves, `mapM` of the lookup succeeds and
returns elements of `l` carrying exactly the requested ids in order. -/
theorem mapM_lookupOrThrow_ok (key : α → String) (l : List α) (msg : String) :
    ∀ ids : List String, (∀ id ∈ ids, ∃ x ∈ l, key x = id) →
      ∃ xs : List α, ids.mapM (lookupOrThrow key l msg) = Except.ok xs ∧
        xs.map key = ids ∧ ∀ x ∈ xs, x ∈ l := by
  intro ids
  induction ids with
  | nil => intro _; exact ⟨[], rfl, rfl, by simp⟩
  | cons id ids ih =>
    intro h
    have hid := h id (by simp)
    have hsome := lastWithId_isSome key l id hid
    rcases hx : lastWithId key l id with _ | x
    · rw [hx] at hsome; simp at hsome
    · obtain ⟨hkey, hmem⟩ := lastWithId_eq_some key l id x hx
      obtain ⟨xs, hxs, hmap, hsub⟩ := ih fun i hi => h i (by simp [hi])
      refine ⟨x :: xs, ?_, by simp [hmap, hkey], ?_⟩
      · simp only [List.mapM_cons, lookupOrThrow, hx, hxs]
        rfl
      · intro y hy
        rcases List.mem_cons.mp hy with hy | hy
        · exact hy ▸ hmem
        · exact hsub y hy

/-- When some requested id resolves to nothing, `mapM` of the lookup
throws. -/
theorem mapM_lookupOrThrow_error (key : α → String) (l : List α) (msg : String) :
    ∀ ids : List String, (∃ id ∈ ids, ∀ x ∈ l, key x ≠ id) →
      ∃ e, ids.mapM (lookupOrThrow key l msg) = Except.error e := by
  intro ids
  induction ids with
  | nil => rintro ⟨id, h, -⟩; simp at h
  | cons id ids ih =>
    rintro ⟨i, hi, hforeign⟩
    rcases hx : lastWithId key l id with _ | x
    · refine ⟨msg ++ id ++ " not found", ?_⟩
      simp only [List.mapM_cons, lookupOrThrow, hx]
      rfl
    · rcases List.mem_cons.mp hi with hi | hi
      · obtain ⟨hkey, hmem⟩ := lastWithId_eq_some key l id x hx
        exact absurd hkey (hi ▸ hforeign x hmem)
      · obtain ⟨e, he⟩ := ih ⟨i, hi, hforeign⟩
        refine ⟨e, ?_⟩
        simp only [List.mapM_cons, lookupOrThrow, hx, he]
        rfl

/-! ## Claim C3 -/

/-- C3: a reorder request carrying an id that is not among the existing
shot ids of the scene (resp. scene ids of the storyboard) throws, so no
element is silently dropped or inserted; a reorder request that is a
permutation of the existing ids succeeds and produces a shot (resp.
scene) list whose ids are exactly the requested ids — a permutation of
the existing id list. -/
theorem reorder_permutation_or_throw (sb : StoryboardData) (sceneId : String)
    (shotIds sceneIds : List String) :
    (∀ scene, sb.scenes.find? (fun s => s.id == sceneId) = some scene →
        (∃ id ∈ shotIds, ∀ shot ∈ scene.shots, shot.id ≠ id) →
        ∃ e, reorderShots sb sceneId shotIds = Except.error e) ∧
    (∀ scene, sb.scenes.find? (fun s => s.id == sceneId) = some scene →
        shotIds.Perm (scene.shots.map ShotInfo.id) →
        ∃ shots', reorderShots sb sceneId shotIds =
            Except.ok { sb with
              scenes := sb.scenes.map fun s =>
                if s.id = sceneId then { s with shots := shots' } else s } ∧
          shots'.map ShotInfo.id = shotIds ∧
          (shots'.map ShotInfo.id).Perm (scene.shots.map ShotInfo.id)) ∧
    ((∃ id ∈ sceneIds, ∀ scene ∈ sb.scenes, scene.id ≠ id) →
        ∃ e, reorderScenes sb sceneIds = Except.error e) ∧
    (sceneIds.Perm (sb.scenes.map SceneInfo.id) →
        ∃ scenes', reorderScenes sb sceneIds =
            Except.ok { sb with scenes := scenes' } ∧
          scenes'.map SceneInfo.id = sceneIds ∧
          (scenes'.map SceneInfo.id).Perm (sb.scenes.map SceneInfo.id)) := by
  refine ⟨?_, ?_, ?_, ?_⟩
  · intro scene hfind hforeign
    obtain ⟨e, he⟩ := mapM_lookupOrThrow_error ShotInfo.id scene.shots "Shot with ID "
      shotIds hforeign
    exact ⟨e, by simp only [reorderShots, hfind, he]; rfl⟩
  · intro scene hfind hperm
    obtain ⟨xs, hxs, hmap, -⟩ := mapM_lookupOrThrow_ok ShotInfo.id scene.shots "Shot with ID "
      shotIds (by
        intro id hid
        have : id ∈ scene.shots.map ShotInfo.id := hperm.subset hid
        obtain ⟨x, hx, hxid⟩ := List.mem_map.mp this
        exact ⟨x, hx, hxid⟩)
    refine ⟨xs, by simp only [reorderShots, hfind, hxs]; rfl, hmap, ?_⟩
    rw [hmap]
    exact hperm
  · intro hforeign
    obtain ⟨e, he⟩ := mapM_lookupOrThrow_error SceneInfo.id sb.scenes "Scene with ID "
      sceneIds hforeign
    exact ⟨e, by simp only [reorderScenes, he]; rfl⟩
  · intro hperm
    obtain ⟨xs, hxs, hmap, -⟩ := mapM_lookupOrThrow_ok SceneInfo.id sb.scenes "Scene with ID "
      sceneIds (by
        intro id hid
        have : id ∈ sb.scenes.map SceneInfo.id := hperm.subset hid
        obtain ⟨x, hx, hxid⟩ := List.mem_map.mp this
        exact ⟨x, hx, hxid⟩)
    refine ⟨xs, by simp only [reorderScenes, hxs]; rfl, hmap, ?_⟩
    rw [hmap]
    exact hperm

/-- Witness for C3 on `exampleTwoScenes`: a foreign shot id and a foreign
scene id throw, while permutations `["c", "b"]` of scene `s2` and
`["s2", "s1"]` of the scene list succeed with exactly those ids. -/
theorem reorder_permutation_or_throw_witness :
    (∃ e, reorderShots exampleTwoScenes "s2" ["zz", "b"] = Except.error e) ∧
    (∃ shots', reorderShots exampleTwoScenes "s2" ["c", "b"] =
        Except.ok { exampleTwoScenes with
          scenes := exampleTwoScenes.scenes.map fun s =>
            if s.id = "s2" then { s with shots := shots' } else s } ∧
      shots'.map ShotInfo.id = ["c", "b"] ∧
      (shots'.map ShotInfo.id).Perm
        [ShotInfo.id { id := "b", sceneId := "s2" }, ShotInfo.id { id := "c", sceneId := "s2" }]) ∧
    (∃ e, reorderScenes exampleTwoScenes ["zz"] = Except.error e) ∧
    (∃ scenes', reorderScenes exampleTwoScenes ["s2", "s1"] =
        Except.ok { exampleTwoScenes with scenes := scenes' } ∧
      scenes'.map SceneInfo.id = ["s2", "s1"] ∧
      (scenes'.map SceneInfo.id).Perm (exampleTwoScenes.scenes.map SceneInfo.id)) := by
  refine ⟨?_, ?_, ?_, ?_⟩
  · exact (reorder_permutation_or_throw exampleTwoScenes "s2" ["zz", "b"] []).1
      { id := "s2", title := "Two",
        shots := [{ id := "b", sceneId := "s2" }, { id := "c", sceneId := "s2" }] }
      (by decide) (by decide)
  · have h := (reorder_permutation_or_throw exampleTwoScenes "s2" ["c", "b"] []).2.1
      { id := "s2", title := "Two",
        shots := [{ id := "b", sceneId := "s2" }, { id := "c", sceneId := "s2" }] }
      (by decide) (by decide)
    simpa using h
  · exact (reorder_permutation_or_throw exampleTwoScenes "s2" [] ["zz"]).2.2.1
      (by decide)
  · exact (reorder_permutation_or_throw exampleTwoScenes "s2" [] ["s2", "s1"]).2.2.2
      (by decide)

/-! ## Claim C10 -/

/-- C10: a successful `reorderShots` call touches only the target scene:
every top-level field of the storyboard other than `scenes` is unchanged,
the scene count is unchanged, and every scene position whose scene id
differs from the target id holds exactly the scene it held before. -/
theorem reorderShots_frame (sb sb' : StoryboardData) (sceneId : String)
    (shotIds : List String)
    (h : reorderShots sb sceneId shotIds = Except.ok sb') :
    (sb'.id, sb'.title, sb'.author, sb'.director, sb'.date, sb'.version,
        sb'.style, sb'.aspectRatio, sb'.templateStyle, sb'.annotations) =
      (sb.id, sb.title, sb.author, sb.director, sb.date, sb.version,
        sb.style, sb.aspectRatio, sb.templateStyle, sb.annotations) ∧
    sb'.scenes.length = sb.scenes.length ∧
    ∀ (i : Nat) (scene : SceneInfo), sb.scenes[i]? = some scene →
      scene.id ≠ sceneId → sb'.scenes[i]? = some scene := by
  unfold reorderShots at h
  rcases hfind : sb.scenes.find? (fun s => s.id == sceneId) with _ | scene
  · rw [hfind] at h
    cases h
    exact ⟨rfl, rfl, fun i scene hi _ => hi⟩
  · rw [hfind] at h
    dsimp only at h
    rcases hm : shotIds.mapM (lookupOrThrow ShotInfo.id scene.shots "Shot with ID ")
      with e | xs
    · rw [hm] at h
      exact absurd h (by simp [Except.map])
    · rw [hm] at h
      simp only [Except.map] at h
      cases h
      refine ⟨rfl, by simp, ?_⟩
      intro i sc hi hne
      simp only [List.getElem?_map, hi]
      simp [hne]

/-- Witness for C10: reordering scene `s2` of `exampleTwoScenes` to
`["c", "b"]` keeps the document id and leaves scene position 0 (scene
`s1`) untouched. -/
theorem reorderShots_frame_witness :
    ({ exampleTwoScenes with
        scenes :=
          [ { id := "s1", title := "One", shots := [{ id := "a", sceneId := "s1" }] },
            { id := "s2", title := "Two",
              shots := [{ id := "c", sceneId := "s2" }, { id := "b", sceneId := "s2" }] } ] }
        : StoryboardData).scenes[0]? =
      some { id := "s1", title := "One", shots := [{ id := "a", sceneId := "s1" }] } := by
  have h : reorderShots exampleTwoScenes "s2" ["c", "b"] =
      Except.ok { exampleTwoScenes with
        scenes :=
          [ { id := "s1", title := "One", shots := [{ id := "a", sceneId := "s1" }] },
            { id := "s2", title := "Two",
              shots := [{ id := "c", sceneId := "s2" }, { id := "b", sceneId := "s2" }] } ] } := by
    rfl
  exact (reorderShots_frame _ _ "s2" ["c", "b"] h).2.2 0
    { id := "s1", title := "One", shots := [{ id := "a", sceneId := "s1" }] }
    (by rfl) (by decide)

/-! ## Claim C7 -/

/-- C7: saving a project and loading it back under the same project id
reproduces the document and every persisted companion field; a persisted
storyboard without an `annotations` field comes back with `annotations`
defaulted to the empty array, and one that has the field comes back
deep-equal. -/
theorem saveLoad_roundtrip (st st2 : AppState) (σ : Storage) (sb : StoryboardData)
    (h : st.storyboardData = some sb) :
    (loadProject st2 (saveProject st σ).2 sb.id).storyboardData =
        some { sb with annotations := some (sb.annotations.getD []) } ∧
    (loadProject st2 (saveProject st σ).2 sb.id).storyInput = st.storyInput ∧
    (loadProject st2 (saveProject st σ).2 sb.id).styleSettings = st.styleSettings ∧
    (loadProject st2 (saveProject st σ).2 sb.id).characters = st.characters ∧
    (loadProject st2 (saveProject st σ).2 sb.id).characterDescriptions =
      st.characterDescriptions ∧
    (loadProject st2 (saveProject st σ).2 sb.id).versionHistory = st.versionHistory ∧
    (loadProject st2 (saveProject st σ).2 sb.id).currentVersionIndex =
      st.currentVersionIndex ∧
    (loadProject st2 (saveProject st σ).2 sb.id).savedTemplateStyles =
      st.savedTemplateStyles ∧
    (∀ l, sb.annotations = some l →
      (loadProject st2 (saveProject st σ).2 sb.id).storyboardData = some sb) := by
  have hload :
      loadProject st2 (saveProject st σ).2 sb.id =
        { storyInput := st.storyInput
          storyboardData := some (withDefaultAnnots sb)
          styleSettings := st.styleSettings
          characters := st.characters
          characterDescriptions := st.characterDescriptions
          versionHistory := st.versionHistory
          currentVersionIndex := st.currentVersionIndex
          savedTemplateStyles := st.savedTemplateStyles
          projectSaved := true } := by
    simp [saveProject, h, loadProject]
  rw [hload]
  refine ⟨rfl, rfl, rfl, rfl, rfl, rfl, rfl, rfl, ?_⟩
  intro l hl
  simp only [withDefaultAnnots, hl, Option.getD]
  cases sb
  simp only at hl
  simp [hl]

/-- Witness for C7: a state holding `exampleSolo` stripped of its
`annotations` field round-trips through an empty storage into the same
document with `annotations` defaulted to `[]`, and with the story input
preserved. -/
theorem saveLoad_roundtrip_witness :
    (loadProject {}
        (saveProject
          { storyInput := "once upon a time"
            storyboardData := some { exampleSolo with annotations := none } }
          fun _ => none).2
        "sb1").storyboardData =
      some { exampleSolo with annotations := some [] } ∧
    (loadProject {}
        (saveProject
          { storyInput := "once upon a time"
            storyboardData := some { exampleSolo with annotations := none } }
          fun _ => none).2
        "sb1").storyInput = "once upon a time" := by
  have h := saveLoad_roundtrip
    { storyInput := "once upon a time"
      storyboardData := some { exampleSolo with annotations := none } }
    {} (fun _ => none) { exampleSolo with annotations := none } rfl
  exact ⟨h.1, h.2.1⟩

/-! ## Claim C5 -/

/-- The queue invariant: the service is quiescent between events (the
`isProcessing` flag is always restored before the synchronous body ends)
and the resolutions so far, followed by the still-pending requests, are
exactly the submissions in submission order. -/
def QueueInv (s : QueueState) : Prop :=
  s.isProcessing = false ∧
    s.resolved.map Prod.fst ++ s.pending = s.submitted

theorem queueStep_preserves (resolveFn : String → String) (s : QueueState)
    (e : QueueEvent) (hinv : QueueInv s) :
    QueueInv (queueStep resolveFn s e) ∧
      ∃ step : Option (String × String),
        (queueStep resolveFn s e).resolved = s.resolved ++ step.toList := by
  obtain ⟨hp, hfifo⟩ := hinv
  cases e with
  | generateImage prompt =>
    cases hq : s.pending with
    | nil =>
      refine ⟨⟨?_, ?_⟩, some (prompt, resolveFn prompt), ?_⟩ <;>
        simp_all [queueStep, processQueue, QueueInv]
    | cons q rest =>
      refine ⟨⟨?_, ?_⟩, some (q, resolveFn q), ?_⟩
      · simp [queueStep, processQueue, hp, hq]
      · simp only [queueStep, processQueue, hp, hq]
        simp only [← hfifo, hq]
        simp
      · simp [queueStep, processQueue, hp, hq]
  | timerFire =>
    cases hq : s.pending with
    | nil =>
      refine ⟨⟨?_, ?_⟩, none, ?_⟩ <;>
        simp_all [queueStep, processQueue, QueueInv]
    | cons q rest =>
      refine ⟨⟨?_, ?_⟩, some (q, resolveFn q), ?_⟩ <;>
        simp_all [queueStep, processQueue, QueueInv]

theorem runQueue_inv (resolveFn : String → String) (events : List QueueEvent) :
    QueueInv (runQueue resolveFn events) := by
  suffices h : ∀ s, QueueInv s → QueueInv (events.foldl (queueStep resolveFn) s) by
    exact h {} ⟨rfl, rfl⟩
  induction events with
  | nil => intro s hs; exact hs
  | cons e es ih =>
    intro s hs
    exact ih _ (queueStep_preserves resolveFn s e hs).1

/-- C5: for every adapter resolution function and every interleaving of
`generateImage` submissions and timer re-arms, the requests resolved so
far followed by the still-queued requests equal the submitted prompts in
submission order — so resolutions happen in FIFO order and nothing is
lost or duplicated — and each event of the loop resolves at most one
request, the previous resolutions staying untouched: no two requests are
ever processed concurrently. -/
theorem queue_fifo_no_overlap (resolveFn : String → String) (events : List QueueEvent) :
    (runQueue resolveFn events).resolved.map Prod.fst ++
        (runQueue resolveFn events).pending =
      (runQueue resolveFn events).submitted ∧
    (runQueue resolveFn events).isProcessing = false ∧
    ∀ e : QueueEvent, ∃ step : Option (String × String),
      (runQueue resolveFn (events ++ [e])).resolved =
        (runQueue resolveFn events).resolved ++ step.toList := by
  obtain ⟨hp, hfifo⟩ := runQueue_inv resolveFn events
  refine ⟨hfifo, hp, ?_⟩
  intro e
  have hstep := queueStep_preserves resolveFn (runQueue resolveFn events) e
    ⟨hp, hfifo⟩
  obtain ⟨-, step, hres⟩ := hstep
  refine ⟨step, ?_⟩
  rw [runQueue, List.foldl_append]
  exact hres

/-! ## Claim C9 -/

/-- Every resolution the queue worker performs applies the adapter's
resolver to the dequeued prompt. -/
theorem runQueue_resolved_spec (resolveFn : String → String) (events : List QueueEvent) :
    ∀ r ∈ (runQueue resolveFn events).resolved, r.2 = resolveFn r.1 := by
  suffices h : ∀ s : QueueState, (∀ r ∈ s.resolved, r.2 = resolveFn r.1) →
      ∀ r ∈ (events.foldl (queueStep resolveFn) s).resolved, r.2 = resolveFn r.1 by
    exact h {} (by simp)
  induction events with
  | nil => intro s hs; exact hs
  | cons e es ih =>
    intro s hs
    refine ih _ ?_
    cases e with
    | generateImage prompt =>
      cases hq : s.pending <;>
        cases hp : s.isProcessing <;>
        · intro r hr
          simp only [queueStep, processQueue, hq, hp] at hr
          simp at hr
          first
          | exact hs r hr
          | (rcases hr with hr | hr
             · exact hs r hr
             · simp [hr])
    | timerFire =>
      cases hq : s.pending <;>
        cases hp : s.isProcessing <;>
        · intro r hr
          simp only [queueStep, processQueue, hq, hp] at hr
          simp at hr
          first
          | exact hs r hr
          | (rcases hr with hr | hr
             · exact hs r hr
             · simp [hr])

/-- The prompt of 101 `a` characters, longer than the 100-character
truncation window. -/
def longPrompt : String := ⟨List.replicate 101 'a'⟩

/-- Counterexample to C9 as stated: the `ImageGenerationService` adapter
(`src/unnamed/part_000`) percent-encodes the whole prompt, not its first
100 characters, so on a 101-character prompt its placeholder URL differs
from the URL the claim prescribes for every adapter. -/
theorem imageService_placeholder_not_truncated :
    imageServicePlaceholderImage longPrompt ≠
      "/placeholder.svg?height=450&width=800&query=" ++
        encodeURIComponent (jsSubstringTo longPrompt 100) := by decide

/-- C9 (amended): a dequeued request resolves to the deterministic
placeholder URL `/placeholder.svg?height=450&width=800&query=` followed
by the percent-encoding of the prompt's first 100 characters for
`FalImageService`, and of the **entire** prompt for
`ImageGenerationService`; on either adapter, entries with equal prompts
resolve to equal URLs. -/
theorem placeholder_resolution (events : List QueueEvent) :
    (∀ r ∈ (runQueue falPlaceholderImage events).resolved,
        r.2 = "/placeholder.svg?height=450&width=800&query=" ++
          encodeURIComponent (jsSubstringTo r.1 100)) ∧
    (∀ r ∈ (runQueue imageServicePlaceholderImage events).resolved,
        r.2 = "/placeholder.svg?height=450&width=800&query=" ++
          encodeURIComponent r.1) ∧
    (∀ r1 ∈ (runQueue falPlaceholderImage events).resolved,
      ∀ r2 ∈ (runQueue falPlaceholderImage events).resolved,
        r1.1 = r2.1 → r1.2 = r2.2) ∧
    (∀ r1 ∈ (runQueue imageServicePlaceholderImage events).resolved,
      ∀ r2 ∈ (runQueue imageServicePlaceholderImage events).resolved,
        r1.1 = r2.1 → r1.2 = r2.2) := by
  have hfal := runQueue_resolved_spec falPlaceholderImage events
  have himg := runQueue_resolved_spec imageServicePlaceholderImage events
  refine ⟨fun r hr => hfal r hr, fun r hr => himg r hr, ?_, ?_⟩
  · intro r1 h1 r2 h2 hp
    rw [hfal r1 h1, hfal r2 h2, hp]
  · intro r1 h1 r2 h2 hp
    rw [himg r1 h1, himg r2 h2, hp]

/-- Witness for C9 (amended) on the one-submission trace `["p"]`: the
resolved entry of each adapter carries the prescribed URL. -/
theorem placeholder_resolution_witness :
    (("p", "/placeholder.svg?height=450&width=800&query=p") : String × String).2 =
      "/placeholder.svg?height=450&width=800&query=" ++
        encodeURIComponent (jsSubstringTo "p" 100) ∧
    (("p", "/placeholder.svg?height=450&width=800&query=p") : String × String).2 =
      "/placeholder.svg?height=450&width=800&query=" ++ encodeURIComponent "p" := by
  constructor
  · exact (placeholder_resolution [QueueEvent.generateImage "p"]).1
      ("p", "/placeholder.svg?height=450&width=800&query=p") (by decide)
  · exact (placeholder_resolution [QueueEvent.generateImage "p"]).2.1
      ("p", "/placeholder.svg?height=450&width=800&query=p") (by decide)

/-! ## Claim C1 -/

/-- Structure of the scene list `analyzeStoryBasic` builds: one scene per
paragraph, in order, with the paragraph as the scene description, and a
shot count of `rng k % 3 + 2` — always between 2 and 4. -/
theorem buildBasicScenes_spec (rng : Nat → Nat) :
    ∀ (ps : List String) (idx k : Nat),
      (buildBasicScenes rng ps idx k).length = ps.length ∧
      (∀ (i : Nat) (p : String), ps[i]? = some p →
        ∃ scene, (buildBasicScenes rng ps idx k)[i]? = some scene ∧
          scene.description = p) ∧
      (∀ scene ∈ buildBasicScenes rng ps idx k,
        2 ≤ scene.shots.length ∧ scene.shots.length ≤ 4) := by
  intro ps
  induction ps with
  | nil =>
    intro idx k
    refine ⟨rfl, ?_, by simp [buildBasicScenes]⟩
    intro i p hp
    simp at hp
  | cons p ps ih =>
    intro idx k
    refine ⟨?_, ?_, ?_⟩
    · simpa [buildBasicScenes] using (ih (idx + 1) (k + 1 + 4 * (rng k % 3 + 2))).1
    · intro i q hq
      cases i with
      | zero =>
        simp only [List.getElem?_cons_zero, Option.some.injEq] at hq
        exact ⟨mkBasicScene rng k p idx, by simp [buildBasicScenes], by
          simp [mkBasicScene, ← hq]⟩
      | succ j =>
        simp only [List.getElem?_cons_succ] at hq
        obtain ⟨scene, hscene, hdesc⟩ :=
          (ih (idx + 1) (k + 1 + 4 * (rng k % 3 + 2))).2.1 j q hq
        exact ⟨scene, by simpa [buildBasicScenes] using hscene, hdesc⟩
    · intro scene hscene
      simp only [buildBasicScenes] at hscene
      rcases List.mem_cons.mp hscene with hscene | hscene
      · subst hscene
        have hlen : (mkBasicScene rng k p idx).shots.length = rng k % 3 + 2 := by
          simp [mkBasicScene]
        have hmod : rng k % 3 < 3 := Nat.mod_lt _ (by omega)
        omega
      · exact (ih (idx + 1) (k + 1 + 4 * (rng k % 3 + 2))).2.2 scene hscene

/-- Counterexample to C1 as stated: on the input `"a\nb"` — a single
non-empty paragraph under the specification's blank-line paragraph notion
— the code produces **two** scenes, because `analyzeStoryBasic` splits on
`/\n+/`, i.e. on every newline run, not only on blank lines. -/
theorem analyzeStoryBasic_not_blank_line_paragraphs :
    (specParagraphs "a\nb").length = 1 ∧
      (analyzeStoryBasic (fun _ => 0) "a\nb").scenes.length = 2 := by decide

/-- C1 (amended): for every story input and every random stream, the
basic segmentation produces exactly one scene per non-blank segment of
the input split on runs of newlines (single newlines separate scenes
too, not only blank lines); an input with `k` such segments yields
exactly `k` scenes, in input order (the `i`-th scene's description is the
`i`-th segment), and every produced scene has between 2 and 4 shots
inclusive. -/
theorem analyzeStoryBasic_scene_per_segment (rng : Nat → Nat) (storyText : String) :
    (analyzeStoryBasic rng storyText).scenes.length =
      (codeParagraphs storyText).length ∧
    (∀ (i : Nat) (p : String), (codeParagraphs storyText)[i]? = some p →
      ∃ scene, (analyzeStoryBasic rng storyText).scenes[i]? = some scene ∧
        scene.description = p) ∧
    (∀ scene ∈ (analyzeStoryBasic rng storyText).scenes,
      2 ≤ scene.shots.length ∧ scene.shots.length ≤ 4) :=
  buildBasicScenes_spec rng (codeParagraphs storyText) 0 0

/-- Witness for C1 (amended) on `"a\nb"`: segment 0 is `"a"`; the scene
built for it describes exactly that segment and carries 2 to 4 shots. -/
theorem analyzeStoryBasic_scene_per_segment_witness :
    ∃ scene, (analyzeStoryBasic (fun _ => 0) "a\nb").scenes[0]? = some scene ∧
      scene.description = "a" ∧
      2 ≤ scene.shots.length ∧ scene.shots.length ≤ 4 := by
  obtain ⟨scene, hscene, hdesc⟩ :=
    (analyzeStoryBasic_scene_per_segment (fun _ => 0) "a\nb").2.1 0 "a" (by decide)
  have hmem : scene ∈ (analyzeStoryBasic (fun _ => 0) "a\nb").scenes :=
    List.getElem?_mem hscene
  obtain ⟨h2, h4⟩ :=
    (analyzeStoryBasic_scene_per_segment (fun _ => 0) "a\nb").2.2 scene hmem
  exact ⟨scene, hscene, hdesc, h2, h4⟩

/-! ## Claim C2 -/

/-- C2 failing input, evaluated: on the single paragraph
`"Alice ran. She fell."` with a random stream choosing 2 shots, the
paragraph's (filtered) sentences are `["Alice ran", " She fell"]`, yet
the produced shot descriptions are
`["Alice ran.  She fell.", " She fell."]`: the sentence `" She fell"`
appears in both shots, so the descriptions do not partition the
sentences.  The slip: `sentenceCount` is the length of the **unfiltered**
`split(/[.!?]+/)` result (3, counting the empty trailing segment), while
`slice` runs over the **filtered** sentence list (length 2), so the
second shot's range `[1, 3)` re-covers sentence 1. -/
theorem analyzeStoryBasic_shot_descriptions_overlap :
    ((analyzeStoryBasic (fun _ => 0) "Alice ran. She fell.").scenes.map
        fun scene => scene.shots.map fun shot => shot.description) =
      [["Alice ran.  She fell.", " She fell."]] ∧
    ((jsSplitRuns sentenceEnd "Alice ran. She fell.").filter fun s => jsTrim s ≠ "") =
      ["Alice ran", " She fell"] ∧
    (jsSplitRuns sentenceEnd "Alice ran. She fell.").length = 3 ∧
    jsIncludes "Alice ran.  She fell."  " She fell" = true ∧
    jsIncludes " She fell." " She fell" = true := by decide

/-! ## Claim C8 -/

/-- Counterexample to C8 as stated: `updateShot` spreads the caller's
update object last (`{ ...shot, ...updates }`), so an update carrying a
foreign `sceneId` rewrites the shot's owner reference in place and breaks
the invariant `shot.sceneId = owning scene.id`. -/
theorem updateShot_breaks_sceneId_invariant :
    SceneIdInvariant exampleSolo ∧
      ¬ SceneIdInvariant (updateShot exampleSolo "s1" "a" { sceneId := some "s2" }) := by
  decide

/-- Membership helper for the amended C8: the invariant transfers along
`scenes.map` when the image of every scene is internally consistent. -/
theorem invScenes_map (scenes : List SceneInfo) (f : SceneInfo → SceneInfo)
    (hf : ∀ scene ∈ scenes, ∀ shot ∈ (f scene).shots, shot.sceneId = (f scene).id) :
    ∀ scene ∈ scenes.map f, ∀ shot ∈ scene.shots, shot.sceneId = scene.id := by
  intro scene' h shot' h2
  obtain ⟨scene, hscene, rfl⟩ := List.mem_map.mp h
  exact hf scene hscene shot' h2

/-- C8 (amended): the six shot-management operations preserve the
invariant that every shot's `sceneId` names its owning scene, provided
the caller-supplied partials do not smuggle in a foreign owner:
`updateShot`'s update and `addShot`'s partial must either omit `sceneId`
or set it to the target scene's id, and the shots of `addScene`'s partial
must already reference the id the new scene will get; `moveShot`,
`duplicateShot` and `duplicateScene` preserve the invariant
unconditionally. -/
theorem shot_ops_preserve_sceneId_invariant (sb : StoryboardData)
    (hinv : SceneIdInvariant sb) :
    (∀ sceneId shotId updates,
      updates.sceneId = none ∨ updates.sceneId = some sceneId →
      SceneIdInvariant (updateShot sb sceneId shotId updates)) ∧
    (∀ sceneId patch freshId,
      (patch : ShotPatch).sceneId = none ∨ patch.sceneId = some sceneId →
      SceneIdInvariant (addShot sb sceneId patch freshId)) ∧
    (∀ patch freshId,
      (∀ sh ∈ (patch : ScenePatch).shots.getD [],
        sh.sceneId = jsOrString patch.id freshId) →
      SceneIdInvariant (addScene sb patch freshId)) ∧
    (∀ sourceSceneId shotId targetSceneId targetIndex,
      SceneIdInvariant (moveShot sb sourceSceneId shotId targetSceneId targetIndex)) ∧
    (∀ sceneId shotId freshId,
      SceneIdInvariant (duplicateShot sb sceneId shotId freshId)) ∧
    (∀ sceneId freshSceneId freshShotId,
      SceneIdInvariant (duplicateScene sb sceneId freshSceneId freshShotId)) := by
  refine ⟨?_, ?_, ?_, ?_, ?_, ?_⟩
  · -- updateShot
    intro sceneId shotId updates hupd
    refine invScenes_map sb.scenes _ ?_
    intro scene hscene shot' hshot'
    by_cases hid : scene.id = sceneId
    · simp only [if_pos hid] at hshot' ⊢
      obtain ⟨shot, hshot, rfl⟩ := List.mem_map.mp hshot'
      by_cases hsid : shot.id = shotId
      · rcases hupd with h | h <;>
          simp [if_pos hsid, mergeShot, h, hinv scene hscene shot hshot, hid]
      · simp only [if_neg hsid]
        exact hinv scene hscene shot hshot
    · simp only [if_neg hid] at hshot' ⊢
      exact hinv scene hscene shot' hshot'
  · -- addShot
    intro sceneId patch freshId hp
    refine invScenes_map sb.scenes _ ?_
    intro scene hscene shot' hshot'
    by_cases hid : scene.id = sceneId
    · simp only [if_pos hid] at hshot' ⊢
      rcases List.mem_append.mp hshot' with h | h
      · exact hinv scene hscene shot' h
      · simp only [List.mem_singleton] at h
        subst h
        rcases hp with h | h <;> simp [h, hid]
    · simp only [if_neg hid] at hshot' ⊢
      exact hinv scene hscene shot' hshot'
  · -- addScene
    intro patch freshId hp
    intro scene' hscene' shot' hshot'
    simp only [addScene] at hscene'
    rcases List.mem_append.mp hscene' with h | h
    · exact hinv scene' h shot' hshot'
    · simp only [List.mem_singleton] at h
      subst h
      simp only at hshot'
      exact hp shot' hshot'
  · -- moveShot
    intro sourceSceneId shotId targetSceneId targetIndex
    unfold moveShot
    rcases hsrc : sb.scenes.find? (fun s => s.id == sourceSceneId) with _ | sourceScene <;>
      rcases htgt : sb.scenes.find? (fun s => s.id == targetSceneId) with _ | targetScene <;>
      simp only [hsrc, htgt]
    · exact hinv
    · exact hinv
    · exact hinv
    rcases hshotFind : sourceScene.shots.find? (fun s => s.id == shotId) with _ | shotToMove <;>
      simp only [hshotFind]
    · exact hinv
    have hsrcMem := List.mem_of_find?_eq_some hsrc
    have hsrcId : sourceScene.id = sourceSceneId := by
      simpa using List.find?_some hsrc
    have htgtMem := List.mem_of_find?_eq_some htgt
    have htgtId : targetScene.id = targetSceneId := by
      simpa using List.find?_some htgt
    refine invScenes_map sb.scenes _ ?_
    intro scene hscene shot' hshot'
    by_cases h1 : scene.id = sourceSceneId
    · simp only [if_pos h1] at hshot' ⊢
      exact hsrcId ▸ hinv sourceScene hsrcMem shot' (List.mem_of_mem_filter hshot')
    · simp only [if_neg h1] at hshot' ⊢
      by_cases h2 : scene.id = targetSceneId
      · simp only [if_pos h2] at hshot' ⊢
        have hm : shot' ∈ targetScene.shots ∨
            shot' = { shotToMove with
              sceneId := targetSceneId, sceneContext := targetScene.description } := by
          rcases targetIndex with _ | idx
          · rcases List.mem_append.mp hshot' with h | h
            · exact Or.inl h
            · exact Or.inr (List.mem_singleton.mp h)
          · simp only [jsSpliceInsert] at hshot'
            rcases List.mem_append.mp hshot' with h | h
            · rcases List.mem_append.mp h with h | h
              · exact Or.inl (List.mem_of_mem_take h)
              · exact Or.inr (List.mem_singleton.mp h)
            · exact Or.inl (List.mem_of_mem_drop h)
        rcases hm with h | h
        · exact htgtId ▸ hinv targetScene htgtMem shot' h
        · subst h
          simp [htgtId]
      · simp only [if_neg h2] at hshot' ⊢
        exact hinv scene hscene shot' hshot'
  · -- duplicateShot
    intro sceneId shotId freshId
    unfold duplicateShot
    rcases hscn : sb.scenes.find? (fun s => s.id == sceneId) with _ | scene0 <;>
      simp only [hscn]
    · exact hinv
    rcases hshot0 : scene0.shots.find? (fun s => s.id == shotId) with _ | shotToDuplicate <;>
      simp only [hshot0]
    · exact hinv
    have hscnMem := List.mem_of_find?_eq_some hscn
    have hscnId : scene0.id = sceneId := by simpa using List.find?_some hscn
    have hdupMem := List.mem_of_find?_eq_some hshot0
    refine invScenes_map sb.scenes _ ?_
    intro scene hscene shot' hshot'
    by_cases hid : scene.id = sceneId
    · simp only [if_pos hid] at hshot' ⊢
      rcases List.mem_append.mp hshot' with h | h
      · exact hinv scene hscene shot' h
      · have h := List.mem_singleton.mp h
        subst h
        have := hinv scene0 hscnMem shotToDuplicate hdupMem
        simp only
        rw [this, hscnId, hid]
    · simp only [if_neg hid] at hshot' ⊢
      exact hinv scene hscene shot' hshot'
  · -- duplicateScene
    intro sceneId freshSceneId freshShotId
    unfold duplicateScene
    rcases hscn : sb.scenes.find? (fun s => s.id == sceneId) with _ | scene0 <;>
      simp only [hscn]
    · exact hinv
    intro scene' hscene' shot' hshot'
    simp only at hscene'
    rcases List.mem_append.mp hscene' with h | h
    · exact hinv scene' h shot' hshot'
    · have h := List.mem_singleton.mp h
      subst h
      simp only at hshot'
      obtain ⟨p, hp, rfl⟩ := List.mem_map.mp hshot'
      rfl

/-- Witness for C8 (amended) on `exampleTwoScenes`: an `updateShot` with
no `sceneId` in the update, an `addShot` whose partial names the target
scene, an `addScene` with empty shots, a `moveShot`, a `duplicateShot`
and a `duplicateScene` all keep the invariant. -/
theorem shot_ops_preserve_sceneId_invariant_witness :
    SceneIdInvariant
      (updateShot exampleTwoScenes "s1" "a" { shotDescription := some "edited" }) ∧
    SceneIdInvariant (addShot exampleTwoScenes "s2" { sceneId := some "s2" } "fresh1") ∧
    SceneIdInvariant (addScene exampleTwoScenes { title := some "S3" } "fresh2") ∧
    SceneIdInvariant (moveShot exampleTwoScenes "s2" "b" "s1" (some 0)) ∧
    SceneIdInvariant (duplicateShot exampleTwoScenes "s1" "a" "fresh3") ∧
    SceneIdInvariant (duplicateScene exampleTwoScenes "s2" "fresh4" fun i => toString i) := by
  have hinv : SceneIdInvariant exampleTwoScenes := by decide
  have h := shot_ops_preserve_sceneId_invariant exampleTwoScenes hinv
  exact ⟨h.1 "s1" "a" { shotDescription := some "edited" } (Or.inl rfl),
    h.2.1 "s2" { sceneId := some "s2" } "fresh1" (Or.inr rfl),
    h.2.2.1 { title := some "S3" } "fresh2" (by intro sh hsh; simp at hsh),
    h.2.2.2.1 "s2" "b" "s1" (some 0),
    h.2.2.2.2.1 "s1" "a" "fresh3",
    h.2.2.2.2.2 "s2" "fresh4" fun i => toString i⟩

/-! ## Claim C6: arithmetic helpers -/

theorem ceilDiv_mul_add (L p r : Nat) (hL : 0 < L) (hr : r < L) :
    ceilDiv (L * p + r) L = p + (if r = 0 then 0 else 1) := by
  rcases Nat.eq_zero_or_pos r with hr0 | hr1
  · subst hr0
    have harr : L * p + 0 + L - 1 = (L - 1) + L * p := by omega
    rw [ceilDiv, harr, Nat.add_mul_div_left _ _ hL,
      Nat.div_eq_of_lt (by omega : L - 1 < L)]
    simp
  · have harr : L * p + r + L - 1 = (r - 1) + L * (p + 1) := by
      have h1 : L * (p + 1) = L * p + L := Nat.mul_succ L p
      omega
    rw [ceilDiv, harr, Nat.add_mul_div_left _ _ hL,
      Nat.div_eq_of_lt (by omega : r - 1 < L)]
    have hne : ¬ r = 0 := by omega
    simp [hne]

theorem ceilDiv_le_of_le (S L P : Nat) (hL : 0 < L) (h : S ≤ L * P) :
    ceilDiv S L ≤ P := by
  have h1 : S + L - 1 ≤ (L - 1) + L * P := by omega
  calc ceilDiv S L = (S + L - 1) / L := rfl
    _ ≤ ((L - 1) + L * P) / L := Nat.div_le_div_right h1
    _ = (L - 1) / L + P := Nat.add_mul_div_left _ _ hL
    _ = P := by rw [Nat.div_eq_of_lt (by omega : L - 1 < L)]; omega

theorem le_ceilDiv (S L q : Nat) (hL : 0 < L) (h : L * q + 1 ≤ S) :
    q + 1 ≤ ceilDiv S L := by
  rw [ceilDiv, Nat.le_div_iff_mul_le hL]
  have h1 : (q + 1) * L = L * q + L := by
    have h2 := Nat.mul_comm (q + 1) L
    have h3 : L * (q + 1) = L * q + L := Nat.mul_succ L q
    omega
  omega

/-! ## Claim C6: fold invariants -/

/-- Total number of shots already committed to finished pages. -/
def pagesShots (st : PageBuildState) : Nat :=
  (st.pages.map fun p => p.shots.length).sum

/-- Total number of shots the builder has consumed. -/
def consumedShots (st : PageBuildState) : Nat :=
  pagesShots st + st.currentPageShots.length

/-- Loop invariant of the preview-page builder: the open page is strictly
below the limit, every finished page is within the limit, and the
finished pages split into `nf` shot-count flushes of exactly `L` shots
plus `firedBreaks` break flushes of at least one shot. -/
def PageInv (L : Nat) (st : PageBuildState) : Prop :=
  st.currentPageShots.length < L ∧
  (∀ page ∈ st.pages, page.shots.length ≤ L) ∧
  ∃ nf, st.pages.length = nf + st.firedBreaks ∧
    L * nf + st.firedBreaks ≤ pagesShots st ∧
    pagesShots st ≤ L * st.pages.length

theorem pushShot_inv (L : Nat) (sid : String) (st : PageBuildState) (shot : ShotInfo)
    (hL : 0 < L) (hinv : PageInv L st) :
    PageInv L (pushShot L sid st shot) ∧
      consumedShots (pushShot L sid st shot) = consumedShots st + 1 ∧
      (pushShot L sid st shot).firedBreaks = st.firedBreaks := by
  obtain ⟨hcur, hpages, nf, hlen, hlow, hhigh⟩ := hinv
  by_cases hflush : L ≤ st.currentPageShots.length + 1
  · have hcond :
        pushShot L sid st shot =
          flushPage { st with
            currentPageShots := st.currentPageShots ++
              [{ shotId := shot.id, sceneId := sid,
                 position := shot.printPosition.getD (0, 0),
                 scale := shot.printScale.getD 1 }] } := by
      simp [pushShot, hflush]
    rw [hcond]
    have hfull : st.currentPageShots.length + 1 = L := by omega
    refine ⟨⟨by simpa [flushPage] using hL, ?_, nf + 1, ?_, ?_, ?_⟩, ?_, ?_⟩
    · intro page hpage
      simp only [flushPage] at hpage
      rcases List.mem_append.mp hpage with h | h
      · exact hpages page h
      · have h := List.mem_singleton.mp h
        subst h
        simp
        omega
    · simp [flushPage]
      omega
    · have hstep : L * (nf + 1) = L * nf + L := Nat.mul_succ L nf
      simp only [pagesShots] at hlow
      simp [flushPage, pagesShots]
      omega
    · have hstep : L * (st.pages.length + 1) = L * st.pages.length + L :=
        Nat.mul_succ L st.pages.length
      simp only [pagesShots] at hhigh
      simp [flushPage, pagesShots]
      omega
    · simp only [consumedShots, pagesShots] at hlow ⊢
      simp [flushPage]
      omega
    · simp [flushPage]
  · have hcond :
        pushShot L sid st shot =
          { st with
            currentPageShots := st.currentPageShots ++
              [{ shotId := shot.id, sceneId := sid,
                 position := shot.printPosition.getD (0, 0),
                 scale := shot.printScale.getD 1 }] } := by
      simp [pushShot, hflush]
    rw [hcond]
    refine ⟨⟨by simp; omega, hpages, nf, hlen, hlow, hhigh⟩, ?_, rfl⟩
    simp [consumedShots, pagesShots]
    omega

theorem shotsFold_inv (L : Nat) (sid : String) (hL : 0 < L) :
    ∀ (shots : List ShotInfo) (st : PageBuildState), PageInv L st →
      PageInv L (shots.foldl (pushShot L sid) st) ∧
      consumedShots (shots.foldl (pushShot L sid) st) =
        consumedShots st + shots.length ∧
      (shots.foldl (pushShot L sid) st).firedBreaks = st.firedBreaks := by
  intro shots
  induction shots with
  | nil => intro st h; exact ⟨h, by simp, rfl⟩
  | cons shot shots ih =>
    intro st h
    obtain ⟨h1, h2, h3⟩ := pushShot_inv L sid st shot hL h
    obtain ⟨g1, g2, g3⟩ := ih (pushShot L sid st shot) h1
    refine ⟨by simpa using g1, ?_, ?_⟩
    · simp only [List.foldl_cons, g2, h2, List.length_cons]
      omega
    · simp only [List.foldl_cons, g3, h3]

theorem breakFlush_inv (L : Nat) (st : PageBuildState) (hL : 0 < L)
    (hinv : PageInv L st) (hne : st.currentPageShots.length ≠ 0) :
    PageInv L { flushPage st with firedBreaks := st.firedBreaks + 1 } ∧
      consumedShots { flushPage st with firedBreaks := st.firedBreaks + 1 } =
        consumedShots st := by
  obtain ⟨hcur, hpages, nf, hlen, hlow, hhigh⟩ := hinv
  refine ⟨⟨by simpa [flushPage] using hL, ?_, nf, ?_, ?_, ?_⟩, ?_⟩
  · intro page hpage
    simp only [flushPage] at hpage
    rcases List.mem_append.mp hpage with h | h
    · exact hpages page h
    · have h := List.mem_singleton.mp h
      subst h
      simp
      omega
  · simp [flushPage]
    omega
  · simp only [pagesShots] at hlow
    simp [flushPage, pagesShots]
    omega
  · have hstep : L * (st.pages.length + 1) = L * st.pages.length + L :=
      Nat.mul_succ L st.pages.length
    simp only [pagesShots] at hhigh
    simp [flushPage, pagesShots]
    omega
  · simp only [consumedShots, pagesShots] at *
    simp [flushPage]

theorem processScene_inv (L : Nat) (st : PageBuildState) (scene : SceneInfo)
    (hL : 0 < L) (hinv : PageInv L st) :
    PageInv L (processScene L st scene) ∧
      consumedShots (processScene L st scene) =
        consumedShots st + scene.shots.length ∧
      st.firedBreaks ≤ (processScene L st scene).firedBreaks ∧
      (scene.printPageBreakBefore.getD false = false →
        (processScene L st scene).firedBreaks = st.firedBreaks) := by
  unfold processScene
  by_cases hbr : scene.printPageBreakBefore.getD false ∧
      st.currentPageShots.length ≠ 0
  · obtain ⟨hb1, hb2⟩ := hbr
    have hnil : st.currentPageShots ≠ [] := by
      intro hnil
      rw [hnil] at hb2
      simp at hb2
    have hcond : (scene.printPageBreakBefore.getD false &&
        !st.currentPageShots.isEmpty) = true := by
      simp [hb1, List.isEmpty_iff, hnil]
    rw [if_pos hcond]
    obtain ⟨k1, k2⟩ := breakFlush_inv L st hL hinv hb2
    have hdr : PageInv L { { flushPage st with firedBreaks := st.firedBreaks + 1 } with
        currentSceneHeader := some { sceneId := scene.id, position := (0, 0) } } := by
      obtain ⟨a1, a2, nf, a3, a4, a5⟩ := k1
      exact ⟨a1, a2, nf, a3, a4, a5⟩
    obtain ⟨g1, g2, g3⟩ := shotsFold_inv L scene.id hL scene.shots _ hdr
    refine ⟨g1, ?_, ?_, ?_⟩
    · rw [g2]
      have : consumedShots { { flushPage st with firedBreaks := st.firedBreaks + 1 } with
          currentSceneHeader := some { sceneId := scene.id, position := (0, 0) } } =
          consumedShots st := k2
      omega
    · rw [g3]
      simp [flushPage]
    · intro hflag
      rw [hb1] at hflag
      exact absurd hflag (by simp)
  · have hcond : (scene.printPageBreakBefore.getD false &&
        !st.currentPageShots.isEmpty) = false := by
      rcases Decidable.not_and_iff_or_not.mp hbr with h | h
      · simp [h]
      · have hnil : st.currentPageShots = [] := by
          have h0 : st.currentPageShots.length = 0 := by omega
          exact List.length_eq_zero.mp h0
        simp [hnil]
    rw [if_neg (by simp [hcond])]
    have hdr : PageInv L { st with
        currentSceneHeader := some { sceneId := scene.id, position := (0, 0) } } := by
      obtain ⟨a1, a2, nf, a3, a4, a5⟩ := hinv
      exact ⟨a1, a2, nf, a3, a4, a5⟩
    obtain ⟨g1, g2, g3⟩ := shotsFold_inv L scene.id hL scene.shots _ hdr
    exact ⟨g1, by rw [g2]; rfl, by rw [g3], fun _ => by rw [g3]⟩

theorem scenesFold_inv (L : Nat) (hL : 0 < L) :
    ∀ (scenes : List SceneInfo) (st : PageBuildState), PageInv L st →
      PageInv L (scenes.foldl (processScene L) st) ∧
      consumedShots (scenes.foldl (processScene L) st) =
        consumedShots st + (scenes.map fun s => s.shots.length).sum := by
  intro scenes
  induction scenes with
  | nil => intro st h; exact ⟨h, by simp⟩
  | cons scene scenes ih =>
    intro st h
    obtain ⟨h1, h2, -, -⟩ := processScene_inv L st scene hL h
    obtain ⟨g1, g2⟩ := ih (processScene L st scene) h1
    refine ⟨by simpa using g1, ?_⟩
    simp only [List.foldl_cons, g2, h2, List.map_cons, List.sum_cons]
    omega

/-- The no-page-break loop invariant: no break has fired and the
finished pages hold exactly `L` shots each in total. -/
def NoFlagInv (L : Nat) (st : PageBuildState) : Prop :=
  st.currentPageShots.length < L ∧
  st.firedBreaks = 0 ∧
  pagesShots st = L * st.pages.length

theorem pushShot_noflag (L : Nat) (sid : String) (st : PageBuildState) (shot : ShotInfo)
    (hinv : NoFlagInv L st) : NoFlagInv L (pushShot L sid st shot) := by
  obtain ⟨hcur, hfired, heq⟩ := hinv
  by_cases hflush : L ≤ st.currentPageShots.length + 1
  · have hcond :
        pushShot L sid st shot =
          flushPage { st with
            currentPageShots := st.currentPageShots ++
              [{ shotId := shot.id, sceneId := sid,
                 position := shot.printPosition.getD (0, 0),
                 scale := shot.printScale.getD 1 }] } := by
      simp [pushShot, hflush]
    rw [hcond]
    have hfull : st.currentPageShots.length + 1 = L := by omega
    have hstep : L * (st.pages.length + 1) = L * st.pages.length + L :=
      Nat.mul_succ L st.pages.length
    refine ⟨by simpa [flushPage] using (show 0 < L by omega), by simp [flushPage, hfired], ?_⟩
    simp only [pagesShots] at heq
    simp [flushPage, pagesShots]
    omega
  · have hcond :
        pushShot L sid st shot =
          { st with
            currentPageShots := st.currentPageShots ++
              [{ shotId := shot.id, sceneId := sid,
                 position := shot.printPosition.getD (0, 0),
                 scale := shot.printScale.getD 1 }] } := by
      simp [pushShot, hflush]
    rw [hcond]
    refine ⟨by simp; omega, hfired, ?_⟩
    simp only [pagesShots] at heq ⊢
    simpa using heq

theorem shotsFold_noflag (L : Nat) (sid : String) :
    ∀ (shots : List ShotInfo) (st : PageBuildState), NoFlagInv L st →
      NoFlagInv L (shots.foldl (pushShot L sid) st) := by
  intro shots
  induction shots with
  | nil => intro st h; exact h
  | cons shot shots ih =>
    intro st h
    simpa using ih (pushShot L sid st shot) (pushShot_noflag L sid st shot h)

theorem processScene_noflag (L : Nat) (st : PageBuildState) (scene : SceneInfo)
    (hflag : scene.printPageBreakBefore.getD false = false)
    (hinv : NoFlagInv L st) : NoFlagInv L (processScene L st scene) := by
  unfold processScene
  rw [if_neg (by simp [hflag])]
  obtain ⟨a1, a2, a3⟩ := hinv
  exact shotsFold_noflag L scene.id scene.shots _ ⟨a1, a2, a3⟩

theorem scenesFold_noflag (L : Nat) :
    ∀ (scenes : List SceneInfo) (st : PageBuildState),
      (∀ scene ∈ scenes, scene.printPageBreakBefore.getD false = false) →
      NoFlagInv L st → NoFlagInv L (scenes.foldl (processScene L) st) := by
  intro scenes
  induction scenes with
  | nil => intro st _ h; exact h
  | cons scene scenes ih =>
    intro st hflags h
    simpa using ih (processScene L st scene)
      (fun s hs => hflags s (by simp [hs]))
      (processScene_noflag L st scene (hflags scene (by simp)) h)

/-- A storyboard whose first scene has one shot and whose flagged second
scene has two: with 2 shots per page the break flushes a half-full page
and the remaining two shots fill one more page. -/
def examplePageBreak : StoryboardData :=
  { id := "pbreak"
    scenes :=
      [ { id := "p1", shots := [{ id := "x1", sceneId := "p1" }] },
        { id := "p2", printPageBreakBefore := some true,
          shots := [{ id := "x2", sceneId := "p2" }, { id := "x3", sceneId := "p2" }] } ] }

/-- Counterexample to C6 as stated: on `examplePageBreak` with limit
`L = 2` the preview builder emits 2 pages while the claim's formula —
`ceil(S/L)` plus one page per fired break — demands
`ceil(3/2) + 1 = 3`: a fired break does **not** always add a page. -/
theorem pagination_break_not_one_extra_page :
    (generatePreviewPages "grid" 2 examplePageBreak).pages.length = 2 ∧
    (generatePreviewPages "grid" 2 examplePageBreak).firedBreaks = 1 ∧
    totalShots examplePageBreak = 3 ∧
    ceilDiv (totalShots examplePageBreak) 2 +
      (generatePreviewPages "grid" 2 examplePageBreak).firedBreaks = 3 := by decide

/-- C6 (amended): with per-page limit `L` (the configured
`shotsPerPage` in grid/list layout, 1 in detailed layout, assumed
positive), every produced page holds at most `L` shots; with no scene
flagged `printPageBreakBefore` the pagination produces exactly
`ceil(S/L)` pages for `S` total shots; and in general each fired page
break adds **at most** one extra page: the page count is at least
`ceil(S/L)` and at most `ceil(S/L)` plus the number of fired breaks. -/
theorem pagination_page_count (layout : String) (spp : Nat) (sb : StoryboardData)
    (hL : 0 < effectiveShotsPerPage layout spp) :
    (∀ page ∈ (generatePreviewPages layout spp sb).pages,
      page.shots.length ≤ effectiveShotsPerPage layout spp) ∧
    ((∀ scene ∈ sb.scenes, scene.printPageBreakBefore.getD false = false) →
      (generatePreviewPages layout spp sb).pages.length =
        ceilDiv (totalShots sb) (effectiveShotsPerPage layout spp)) ∧
    ceilDiv (totalShots sb) (effectiveShotsPerPage layout spp) ≤
      (generatePreviewPages layout spp sb).pages.length ∧
    (generatePreviewPages layout spp sb).pages.length ≤
      ceilDiv (totalShots sb) (effectiveShotsPerPage layout spp) +
        (generatePreviewPages layout spp sb).firedBreaks := by
  set L := effectiveShotsPerPage layout spp with hLdef
  set st := sb.scenes.foldl (processScene L) ({} : PageBuildState) with hst
  have hres : generatePreviewPages layout spp sb =
      if !st.currentPageShots.isEmpty then flushPage st else st := rfl
  have hinit : PageInv L ({} : PageBuildState) := by
    refine ⟨by simpa using hL, by simp, 0, by simp, ?_, ?_⟩ <;> simp [pagesShots]
  obtain ⟨hstinv, hcons⟩ := scenesFold_inv L hL sb.scenes {} hinit
  rw [← hst] at hstinv hcons
  have hS : pagesShots st + st.currentPageShots.length = totalShots sb := by
    have h0 : consumedShots ({} : PageBuildState) = 0 := by
      simp [consumedShots, pagesShots]
    rw [consumedShots] at hcons
    rw [hcons, h0]
    simp [totalShots]
  obtain ⟨hcur, hpages, nf, hlen, hlow, hhigh⟩ := hstinv
  by_cases hempty : st.currentPageShots.isEmpty
  · have hcur0 : st.currentPageShots.length = 0 := by
      simp [List.isEmpty_iff] at hempty
      simp [hempty]
    have hcondF : (!st.currentPageShots.isEmpty) = false := by
      rw [hempty]
      rfl
    rw [hres, hcondF, if_neg (by decide : ¬ (false = true))]
    refine ⟨hpages, ?_, ?_, ?_⟩
    · intro hflags
      have hnoflag : NoFlagInv L st := by
        rw [hst]
        exact scenesFold_noflag L sb.scenes {} hflags ⟨by simpa using hL, rfl, by simp [pagesShots]⟩
      obtain ⟨-, -, hexact⟩ := hnoflag
      have hSeq : totalShots sb = L * st.pages.length + 0 := by omega
      rw [hSeq, ceilDiv_mul_add L st.pages.length 0 hL hL]
      simp
    · refine ceilDiv_le_of_le _ _ _ hL ?_
      omega
    · rcases Nat.eq_zero_or_pos nf with hnf | hnf
      · omega
      · have hq : L * (nf - 1) + 1 ≤ totalShots sb := by
          have hstep : L * nf = L * (nf - 1) + L := by
            rcases nf with _ | m
            · omega
            · simp [Nat.mul_succ]
          omega
        have := le_ceilDiv (totalShots sb) L (nf - 1) hL hq
        omega
  · have hcur1 : 1 ≤ st.currentPageShots.length := by
      rcases Nat.eq_zero_or_pos st.currentPageShots.length with h0 | h1
      · exact absurd (by simp [List.isEmpty_iff, List.length_eq_zero.mp h0]) hempty
      · exact h1
    have hF : st.currentPageShots.isEmpty = false := by
      revert hempty
      cases st.currentPageShots.isEmpty <;> simp
    have hcondT : (!st.currentPageShots.isEmpty) = true := by
      rw [hF]
      rfl
    rw [hres, hcondT, if_pos rfl]
    have hflpages : (flushPage st).pages.length = st.pages.length + 1 := by
      simp [flushPage]
    have hflsizes : ∀ page ∈ (flushPage st).pages, page.shots.length ≤ L := by
      intro page hpage
      simp only [flushPage] at hpage
      rcases List.mem_append.mp hpage with h | h
      · exact hpages page h
      · have h := List.mem_singleton.mp h
        subst h
        simp
        omega
    have hflfired : (flushPage st).firedBreaks = st.firedBreaks := by simp [flushPage]
    refine ⟨hflsizes, ?_, ?_, ?_⟩
    · intro hflags
      have hnoflag : NoFlagInv L st := by
        rw [hst]
        exact scenesFold_noflag L sb.scenes {} hflags ⟨by simpa using hL, rfl, by simp [pagesShots]⟩
      obtain ⟨-, -, hexact⟩ := hnoflag
      have hSeq : totalShots sb = L * st.pages.length + st.currentPageShots.length := by
        omega
      rw [hflpages, hSeq,
        ceilDiv_mul_add L st.pages.length st.currentPageShots.length hL hcur]
      have : ¬ st.currentPageShots.length = 0 := by omega
      simp [this]
    · rw [hflpages]
      refine ceilDiv_le_of_le _ _ _ hL ?_
      have hstep : L * (st.pages.length + 1) = L * st.pages.length + L :=
        Nat.mul_succ L st.pages.length
      omega
    · rw [hflpages, hflfired]
      have hq : L * nf + 1 ≤ totalShots sb := by omega
      have := le_ceilDiv (totalShots sb) L nf hL hq
      omega

/-- Witness for C6 (amended) on a no-flag two-scene storyboard with five
shots and `L = 2`: three pages, each within the limit. -/
theorem pagination_page_count_witness :
    (generatePreviewPages "grid" 2 exampleTwoScenes).pages.length =
      ceilDiv (totalShots exampleTwoScenes) 2 ∧
    ceilDiv (totalShots exampleTwoScenes) 2 ≤
      (generatePreviewPages "grid" 2 exampleTwoScenes).pages.length := by
  have h := pagination_page_count "grid" 2 exampleTwoScenes (by decide)
  exact ⟨h.2.1 (by decide), h.2.2.1⟩

end StoryboardVerification
